import Mathlib

/- Verification development for the package-manager core of the stackmatch CLI:
   the semantic-version model (pkg/version), the package-name mapping table and
   orchestrator (pkg/installer/installer.go), the per-manager drivers
   (pkg/installer/package_managers) modelled over an abstract command oracle,
   and the installation tracker (pkg/installer/tracker.go). -/

namespace Stackmatch

/-! ## Character classes and models of the Go string helpers -/

/-- Model of `unicode.IsSpace` restricted to the ASCII whitespace characters
(space 32, tab 9, newline 10, carriage return 13, vertical tab 11, form feed 12). -/
def goIsSpace (c : Char) : Bool :=
  c.toNat = 32 || c.toNat = 9 || c.toNat = 10 || c.toNat = 13 ||
  c.toNat = 11 || c.toNat = 12

/-- The regular-expression digit class `[0-9]` (same characters as `\d`). -/
def isDigitChar (c : Char) : Bool := 48 ≤ c.toNat && c.toNat ≤ 57

/-- Greedy span: longest prefix whose characters satisfy `p`, plus the rest. -/
def spanP (p : Char → Bool) : List Char → List Char × List Char
  | [] => ([], [])
  | c :: cs =>
    if p c then
      let r := spanP p cs
      (c :: r.1, r.2)
    else ([], c :: cs)

/-- `isPrefixList pat s` is true when `pat` is a prefix of `s`. -/
def isPrefixList : List Char → List Char → Bool
  | [], _ => true
  | _ :: _, [] => false
  | p :: ps, c :: cs => p = c && isPrefixList ps cs

/-- Model of `strings.HasPrefix s pre`. -/
def goHasPrefix (s pre : String) : Bool := isPrefixList pre.data s.data

/-- Model of `strings.HasSuffix s suf`. -/
def goHasSuffix (s suf : String) : Bool := isPrefixList suf.data.reverse s.data.reverse

/-- Model of `strings.TrimSuffix s suf`. -/
def goTrimSuffix (s suf : String) : String :=
  if goHasSuffix s suf then String.mk (s.data.take (s.data.length - suf.data.length)) else s

/-- Substring search on character lists (model of `strings.Contains`). -/
def containsList : List Char → List Char → Bool
  | [], pat => isPrefixList pat []
  | c :: cs, pat => isPrefixList pat (c :: cs) || containsList cs pat

/-- Model of `strings.Contains s sub`. -/
def goContains (s sub : String) : Bool := containsList s.data sub.data

/-- Model of `strings.ContainsAny s chars`. -/
def goContainsAny (s chars : String) : Bool := s.data.any (fun c => chars.data.contains c)

/-- Split at the first occurrence of `sep` (returning the pieces before and
after it), or `none` when `sep` does not occur. -/
def splitOnceList (s sep : List Char) : Option (List Char × List Char) :=
  match s with
  | [] => if isPrefixList sep [] then some ([], []) else none
  | c :: cs =>
    if isPrefixList sep (c :: cs) then some ([], (c :: cs).drop sep.length)
    else
      match splitOnceList cs sep with
      | some r => some (c :: r.1, r.2)
      | none => none

/-- Model of `strings.SplitN s sep 2`. -/
def goSplitN2 (s sep : String) : List String :=
  match splitOnceList s.data sep.data with
  | some r => [String.mk r.1, String.mk r.2]
  | none => [s]

/-- Worker for `splitAllList`; the fuel argument only bounds the recursion
depth (splitting a string of length `n` on a non-empty separator produces at
most `n + 1` pieces, so `n + 1` fuel never runs out). -/
def splitAllGo : Nat → List Char → List Char → List (List Char)
  | 0, s, _ => [s]
  | fuel + 1, s, sep =>
    match splitOnceList s sep with
    | some r => r.1 :: splitAllGo fuel r.2 sep
    | none => [s]

/-- Split on every occurrence of `sep` (model of `strings.Split` for a
non-empty separator). -/
def splitAllList (s sep : List Char) : List (List Char) :=
  if sep = [] then [s] else splitAllGo (s.length + 1) s sep

/-- Model of `strings.Split s sep` (used with `sep = "\n"`). -/
def goSplit (s sep : String) : List String :=
  (splitAllList s.data sep.data).map String.mk

/-- Model of `strings.TrimSpace`. -/
def goTrimSpace (s : String) : String :=
  String.mk (((s.data.dropWhile goIsSpace).reverse.dropWhile goIsSpace).reverse)

/-- Worker for `fieldsList`; every recursive call consumes at least one
character, so fuel `length + 1` never runs out. -/
def fieldsGo : Nat → List Char → List (List Char)
  | 0, _ => []
  | fuel + 1, l =>
    match l with
    | [] => []
    | c :: cs =>
      if goIsSpace c then fieldsGo fuel cs
      else
        (c :: (spanP (fun d => !goIsSpace d) cs).1) ::
          fieldsGo fuel (spanP (fun d => !goIsSpace d) cs).2

/-- Model of `strings.Fields`: split around runs of whitespace. -/
def fieldsList (l : List Char) : List (List Char) := fieldsGo (l.length + 1) l

/-- Model of `strings.Fields`. -/
def goFields (s : String) : List String := (fieldsList s.data).map String.mk

/-- ASCII lower-casing of one character (model of the Unicode simple folding
used by `strings.ToLower` / `strings.EqualFold`; all names in this code base
are ASCII). -/
def asciiLower (c : Char) : Char :=
  if 65 ≤ c.toNat && c.toNat ≤ 90 then Char.ofNat (c.toNat + 32) else c

/-- Model of `strings.ToLower`. -/
def goToLower (s : String) : String := String.mk (s.data.map asciiLower)

/-- Model of `strings.EqualFold` (case-insensitive equality). -/
def goEqualFold (a b : String) : Bool := goToLower a = goToLower b

/-- Model of `strings.Join`. -/
def goJoin (sep : String) : List String → String
  | [] => ""
  | [x] => x
  | x :: xs => x ++ sep ++ goJoin sep xs

/-! ## The semantic-version model (pkg/version/version.go)

`Version` mirrors the Go struct.  The spec states numeric components are
unsigned and that unbounded integer parsing is acceptable, so the components
are `Nat`. -/

structure Version where
  Major : Nat
  Minor : Nat
  Patch : Nat
  PreRelease : String
  Build : String
deriving DecidableEq, Repr

/-- Worker for `natToDigits`: fuel-bounded division loop; as long as
`n < 10 ^ fuel` the fuel never runs out. -/
def natToDigitsGo : Nat → Nat → List Char → List Char
  | 0, _, acc => acc
  | fuel + 1, n, acc =>
    if n < 10 then Char.ofNat (48 + n) :: acc
    else natToDigitsGo fuel (n / 10) (Char.ofNat (48 + n % 10) :: acc)

/-- Decimal digits of a natural number, most significant first
(model of `fmt.Sprintf "%d"` / `strconv.Itoa` for non-negative values). -/
def natToDigits (n : Nat) : List Char := natToDigitsGo (n + 1) n []

def natStr (n : Nat) : String := String.mk (natToDigits n)

/-- Value of a digit string (model of `strconv.Atoi` on an all-digit string;
the spec's §4.1 edge-case note makes unbounded parsing acceptable). -/
def digitsToNat (ds : List Char) : Nat :=
  ds.foldl (fun a c => a * 10 + (c.toNat - 48)) 0

/-- The character class `[0-9A-Za-z\-.]` of the version regular expression
(digits 48-57, upper-case letters 65-90, lower-case letters 97-122,
hyphen 45, dot 46). -/
def isVerChar (c : Char) : Bool :=
  (48 ≤ c.toNat && c.toNat ≤ 57) || (65 ≤ c.toNat && c.toNat ≤ 90) ||
  (97 ≤ c.toNat && c.toNat ≤ 122) || c.toNat = 45 || c.toNat = 46

/-- The optional leading `v` of the version regular expression `^v?...`. -/
def stripV (cs : List Char) : List Char :=
  match cs with
  | [] => []
  | c :: rest => if c = 'v' then rest else c :: rest

/-- One optional `(?:\.(\d+))?` group of the version regular expression:
a dot must be followed by at least one digit, otherwise (since no later
group can consume the dot and the match is anchored) the whole parse fails. -/
def parseDotNum (cs : List Char) : Option (Option Nat × List Char) :=
  match cs with
  | c :: rest =>
    if c = '.' then
      let r := spanP isDigitChar rest
      if r.1.isEmpty then none else some (some (digitsToNat r.1), r.2)
    else some (none, c :: rest)
  | [] => some (none, [])

/-- One optional suffix group `(?:-([0-9A-Za-z\-.]+))?` (with delimiter `d`,
either `-` or `+`) of the version regular expression. -/
def parseSuffix (d : Char) (cs : List Char) : Option (String × List Char) :=
  match cs with
  | c :: rest =>
    if c = d then
      let r := spanP isVerChar rest
      if r.1.isEmpty then none else some (String.mk r.1, r.2)
    else some ("", c :: rest)
  | [] => some ("", [])

/-- The anchored match after the optional `v`: major digits, optional minor
and patch groups, optional prerelease and build suffixes, end of input. -/
def parseMain (cs1 : List Char) : Option Version :=
  if (spanP isDigitChar cs1).1.isEmpty then none
  else
    match parseDotNum (spanP isDigitChar cs1).2 with
    | none => none
    | some (minorOpt, cs2) =>
      match parseDotNum cs2 with
      | none => none
      | some (patchOpt, cs3) =>
        match parseSuffix '-' cs3 with
        | none => none
        | some (pre, cs4) =>
          match parseSuffix '+' cs4 with
          | none => none
          | some (build, cs5) =>
            if cs5.isEmpty then
              some { Major := digitsToNat (spanP isDigitChar cs1).1,
                     Minor := minorOpt.getD 0, Patch := patchOpt.getD 0,
                     PreRelease := pre, Build := build }
            else none

/-- `version.Parse` on a character list: deterministic functional equivalent of
matching `^v?(\d+)(?:\.(\d+))?(?:\.(\d+))?(?:-([0-9A-Za-z\-.]+))?(?:\+([0-9A-Za-z\-.]+))?$`
followed by the field assignments of `Parse` (minor/patch default to 0). -/
def parseVer (cs0 : List Char) : Option Version := parseMain (stripV cs0)

/-- `version.Parse` (pkg/version/version.go). -/
def Parse (s : String) : Option Version := parseVer s.data

/-- The `compareInts` helper of pkg/version/version.go. -/
def compareInts (a b : Nat) : Int :=
  if a < b then -1 else if b < a then 1 else 0

/-- `Version.Compare` (pkg/version/version.go): lexicographic on
(major, minor, patch), then the prerelease rules; build metadata ignored. -/
def Version.Compare (v other : Version) : Int :=
  if v.Major ≠ other.Major then compareInts v.Major other.Major
  else if v.Minor ≠ other.Minor then compareInts v.Minor other.Minor
  else if v.Patch ≠ other.Patch then compareInts v.Patch other.Patch
  else if v.PreRelease ≠ "" ∧ other.PreRelease = "" then -1
  else if v.PreRelease = "" ∧ other.PreRelease ≠ "" then 1
  else if v.PreRelease ≠ other.PreRelease then
    if v.PreRelease < other.PreRelease then -1 else 1
  else 0

/-- `Version.String` (pkg/version/version.go): normalized rendering with all
three numeric components and the original suffixes. -/
def Version.toString (v : Version) : String :=
  natStr v.Major ++ "." ++ natStr v.Minor ++ "." ++ natStr v.Patch ++
  (if v.PreRelease ≠ "" then "-" ++ v.PreRelease else "") ++
  (if v.Build ≠ "" then "+" ++ v.Build else "")

/-! The wildcard fallback of `Satisfies` compiles the constraint to a regular
expression by substituting `x`/`X` with `[0-9]+` and `*` with `.*`.  The
matcher below interprets exactly the token shapes that substitution produces
(literals, `.` as any-char, `[0-9]+`, `.*`, and the two anchors). -/

inductive RTok where
  | lit (c : Char)
  | anyOne
  | anyStar
  | digitsPlus
  | startAnchor
  | endAnchor
deriving DecidableEq

def rtokenize : List Char → List RTok
  | '[' :: '0' :: '-' :: '9' :: ']' :: '+' :: rest => .digitsPlus :: rtokenize rest
  | '.' :: '*' :: rest => .anyStar :: rtokenize rest
  | '.' :: rest => .anyOne :: rtokenize rest
  | '^' :: rest => .startAnchor :: rtokenize rest
  | '$' :: rest => .endAnchor :: rtokenize rest
  | c :: rest => .lit c :: rtokenize rest
  | [] => []

def rmatch : List RTok → List Char → Bool
  | [], [] => true
  | [], _ :: _ => false
  | .startAnchor :: ts, cs => rmatch ts cs
  | .endAnchor :: ts, cs => cs.isEmpty && rmatch ts cs
  | .lit c :: ts, d :: cs => c = d && rmatch ts cs
  | .lit _ :: _, [] => false
  | .anyOne :: ts, _ :: cs => rmatch ts cs
  | .anyOne :: _, [] => false
  | .anyStar :: ts, [] => rmatch ts []
  | .anyStar :: ts, d :: cs => rmatch ts (d :: cs) || rmatch (.anyStar :: ts) cs
  | .digitsPlus :: ts, d :: cs => isDigitChar d && (rmatch ts cs || rmatch (.digitsPlus :: ts) cs)
  | .digitsPlus :: _, [] => false
termination_by ts cs => (cs.length, ts.length)

/-- The `strings.NewReplacer("x","[0-9]+","X","[0-9]+","*",".*")` substitution. -/
def replaceWildcards : List Char → List Char
  | [] => []
  | c :: cs =>
    (if c = 'x' || c = 'X' then ('[' :: '0' :: '-' :: '9' :: ']' :: '+' :: [])
     else if c = '*' then ('.' :: '*' :: [])
     else [c]) ++ replaceWildcards cs

/-- `checkWildcardConstraint` (pkg/version/version.go). -/
def checkWildcardConstraint (v : Version) (constraint : String) : Except String Bool :=
  if constraint = "*" || constraint = "x" || constraint = "X" then .ok true
  else if goHasSuffix constraint ".x" || goHasSuffix constraint ".X" then
    let pfx := goTrimSuffix (goTrimSuffix constraint ".x") ".X"
    .ok (goHasPrefix (Version.toString v) (pfx ++ "."))
  else if goContains constraint "-*" then
    let pfx := goTrimSuffix constraint "-*"
    .ok (goHasPrefix (Version.toString v) pfx)
  else
    let regexStr := '^' :: replaceWildcards constraint.data ++ ['$']
    let versionStr :=
      natStr v.Major ++ "." ++ natStr v.Minor ++ "." ++ natStr v.Patch ++
      (if v.PreRelease ≠ "" then "-" ++ v.PreRelease else "")
    .ok (rmatch (rtokenize regexStr) versionStr.data)

/-- The comparison-operator dispatch inside `Version.Satisfies`: strip the
operator, trim, parse, compare. -/
def satisfiesOp (v : Version) (op constraint : String) : Except String Bool :=
  let verStr := goTrimSpace (String.mk (constraint.data.drop op.data.length))
  match Parse verStr with
  | none => .error ("invalid version in constraint: invalid version format: " ++ verStr)
  | some other =>
    let cmp := v.Compare other
    if op = ">=" then .ok (decide (cmp ≥ 0))
    else if op = "<=" then .ok (decide (cmp ≤ 0))
    else if op = ">" then .ok (decide (cmp > 0))
    else if op = "<" then .ok (decide (cmp < 0))
    else if op = "=" then .ok (decide (cmp = 0))
    else .ok (decide (cmp ≠ 0))

/-- `Version.Satisfies` (pkg/version/version.go): empty/`*` accepts anything,
then operator prefixes in the order `>=`, `<=`, `>`, `<`, `=`, `!=`, then the
hyphenated range, then wildcards, then exact match. -/
def Version.Satisfies (v : Version) (constraint : String) : Except String Bool :=
  if constraint = "" || constraint = "*" then .ok true
  else if goHasPrefix constraint ">=" then satisfiesOp v ">=" constraint
  else if goHasPrefix constraint "<=" then satisfiesOp v "<=" constraint
  else if goHasPrefix constraint ">" then satisfiesOp v ">" constraint
  else if goHasPrefix constraint "<" then satisfiesOp v "<" constraint
  else if goHasPrefix constraint "=" then satisfiesOp v "=" constraint
  else if goHasPrefix constraint "!=" then satisfiesOp v "!=" constraint
  else if goContains constraint " - " then
    match goSplitN2 constraint " - " with
    | [a, b] =>
      match Parse (goTrimSpace a) with
      | none => .error ("invalid lower bound in range: invalid version format: " ++ a)
      | some lower =>
        match Parse (goTrimSpace b) with
        | none => .error ("invalid upper bound in range: invalid version format: " ++ b)
        | some upper =>
          .ok (decide (v.Compare lower ≥ 0) && decide (v.Compare upper ≤ 0))
    | _ => .error ("invalid version range: " ++ constraint)
  else if goContainsAny constraint "xX*^" then checkWildcardConstraint v constraint
  else
    match Parse constraint with
    | none => .error ("invalid version constraint: invalid version format: " ++ constraint)
    | some target => .ok (decide (v.Compare target = 0))

/-! ## Character-level facts about strings accepted by the version parser -/

/-- Characters that can occur in a string accepted by the version regular
expression: the class `[0-9A-Za-z\-.]` plus `+` (code 43); the optional
leading `v` is a lower-case letter and needs no extra case. -/
def goodChar (c : Char) : Bool := isVerChar c || c.toNat = 43

theorem isDigitChar_good {c : Char} (h : isDigitChar c = true) : goodChar c = true := by
  simp only [isDigitChar, Bool.and_eq_true, decide_eq_true_eq] at h
  simp only [goodChar, isVerChar, Bool.or_eq_true, Bool.and_eq_true, decide_eq_true_eq]
  omega

theorem isVerChar_good {c : Char} (h : isVerChar c = true) : goodChar c = true := by
  simp only [goodChar, Bool.or_eq_true]
  exact Or.inl h

theorem goodChar_bounds {c : Char} (h : goodChar c = true) :
    43 ≤ c.toNat ∧ c.toNat ≠ 60 ∧ c.toNat ≠ 61 ∧ c.toNat ≠ 62 := by
  simp only [goodChar, isVerChar, Bool.or_eq_true, Bool.and_eq_true,
    decide_eq_true_eq] at h
  omega

theorem goodChar_not_space {c : Char} (h : goodChar c = true) : goIsSpace c = false := by
  have hb := goodChar_bounds h
  simp only [goIsSpace, Bool.or_eq_false_iff, decide_eq_false_iff_not]
  omega

theorem goodChar_ne_space {c : Char} (h : goodChar c = true) : c ≠ ' ' := by
  intro e
  have := goodChar_bounds h
  subst e
  simp at this

theorem spanP_append (p : Char → Bool) (l : List Char) :
    (spanP p l).1 ++ (spanP p l).2 = l := by
  induction l with
  | nil => simp [spanP]
  | cons c cs ih =>
    simp only [spanP]
    by_cases h : p c = true
    · rw [if_pos h]
      simpa using ih
    · rw [if_neg h]
      rfl

theorem spanP_fst_all (p : Char → Bool) (l : List Char) :
    (spanP p l).1.all p = true := by
  induction l with
  | nil => simp [spanP]
  | cons c cs ih =>
    simp only [spanP]
    by_cases h : p c = true
    · rw [if_pos h]
      simpa [h] using ih
    · rw [if_neg h]
      simp

theorem parseDotNum_inv {cs : List Char} {o : Option Nat} {rest : List Char}
    (h : parseDotNum cs = some (o, rest)) :
    ∃ pre, cs = pre ++ rest ∧ pre.all goodChar = true := by
  cases cs with
  | nil =>
    simp only [parseDotNum, Option.some.injEq, Prod.mk.injEq] at h
    exact ⟨[], by simp [h.2.symm], rfl⟩
  | cons c r =>
    simp only [parseDotNum] at h
    by_cases hc : c = '.'
    · rw [if_pos hc] at h
      by_cases he : (spanP isDigitChar r).1.isEmpty
      · rw [if_pos he] at h
        exact absurd h (by simp)
      · rw [if_neg he] at h
        simp only [Option.some.injEq, Prod.mk.injEq] at h
        refine ⟨c :: (spanP isDigitChar r).1, ?_, ?_⟩
        · rw [← h.2, List.cons_append, spanP_append]
        · subst hc
          simp only [List.all_cons, Bool.and_eq_true]
          refine ⟨by decide, ?_⟩
          rw [List.all_eq_true]
          intro x hx
          have := spanP_fst_all isDigitChar r
          rw [List.all_eq_true] at this
          exact isDigitChar_good (this x hx)
    · rw [if_neg hc] at h
      simp only [Option.some.injEq, Prod.mk.injEq] at h
      exact ⟨[], by simp [h.2.symm], rfl⟩

theorem parseSuffix_inv {d : Char} {cs : List Char} {str : String} {rest : List Char}
    (hd : goodChar d = true) (h : parseSuffix d cs = some (str, rest)) :
    (∃ pre, cs = pre ++ rest ∧ pre.all goodChar = true) ∧
      str.data.all isVerChar = true := by
  cases cs with
  | nil =>
    simp only [parseSuffix, Option.some.injEq, Prod.mk.injEq] at h
    refine ⟨⟨[], by simp [h.2.symm], rfl⟩, ?_⟩
    rw [← h.1]
    rfl
  | cons c r =>
    simp only [parseSuffix] at h
    by_cases hc : c = d
    · rw [if_pos hc] at h
      by_cases he : (spanP isVerChar r).1.isEmpty
      · rw [if_pos he] at h
        exact absurd h (by simp)
      · rw [if_neg he] at h
        simp only [Option.some.injEq, Prod.mk.injEq] at h
        constructor
        · refine ⟨c :: (spanP isVerChar r).1, ?_, ?_⟩
          · rw [← h.2, List.cons_append, spanP_append]
          · subst hc
            simp only [List.all_cons, Bool.and_eq_true]
            refine ⟨hd, ?_⟩
            rw [List.all_eq_true]
            intro x hx
            have := spanP_fst_all isVerChar r
            rw [List.all_eq_true] at this
            exact isVerChar_good (this x hx)
        · rw [← h.1]
          exact spanP_fst_all isVerChar r
    · rw [if_neg hc] at h
      simp only [Option.some.injEq, Prod.mk.injEq] at h
      refine ⟨⟨[], by simp [h.2.symm], rfl⟩, ?_⟩
      rw [← h.1]
      rfl

theorem parseMain_good {cs1 : List Char} {v : Version} (h : parseMain cs1 = some v) :
    cs1.all goodChar = true := by
  unfold parseMain at h
  split at h
  · exact absurd h (by simp)
  · split at h
    next => exact absurd h (by simp)
    next mo cs2 h2 =>
      split at h
      next => exact absurd h (by simp)
      next po cs3 h3 =>
        split at h
        next => exact absurd h (by simp)
        next pre cs4 h4 =>
          split at h
          next => exact absurd h (by simp)
          next bld cs5 h5 =>
            split at h
            next h6 =>
              obtain ⟨p2, hp2, hg2⟩ := parseDotNum_inv h2
              obtain ⟨q2, hq2, hgq2⟩ := parseDotNum_inv h3
              obtain ⟨⟨p3, hp3, hg3⟩, _⟩ := @parseSuffix_inv '-' _ _ _ (by decide) h4
              obtain ⟨⟨p4, hp4, hg4⟩, _⟩ := @parseSuffix_inv '+' _ _ _ (by decide) h5
              have hcs5 : cs5 = [] := by
                cases cs5 with
                | nil => rfl
                | cons x xs => simp at h6
              have hdig : (spanP isDigitChar cs1).1.all goodChar = true := by
                rw [List.all_eq_true]
                intro x hx
                have hs := spanP_fst_all isDigitChar cs1
                rw [List.all_eq_true] at hs
                exact isDigitChar_good (hs x hx)
              have hsplit : cs1 = (spanP isDigitChar cs1).1 ++ (spanP isDigitChar cs1).2 :=
                (spanP_append isDigitChar cs1).symm
              rw [hsplit, hp2, hq2, hp3, hp4, hcs5]
              simp only [List.all_append, List.append_nil, Bool.and_eq_true]
              exact ⟨hdig, hg2, hgq2, hg3, hg4⟩
            next => exact absurd h (by simp)

theorem parseVer_good {cs0 : List Char} {v : Version} (h : parseVer cs0 = some v) :
    cs0 ≠ [] ∧ cs0.all goodChar = true := by
  unfold parseVer at h
  cases cs0 with
  | nil =>
    exact absurd h (by simp [stripV, parseMain, spanP])
  | cons c r =>
    refine ⟨by simp, ?_⟩
    simp only [stripV] at h
    by_cases hc : c = 'v'
    · rw [if_pos hc] at h
      subst hc
      simp only [List.all_cons, Bool.and_eq_true]
      exact ⟨by decide, parseMain_good h⟩
    · rw [if_neg hc] at h
      exact parseMain_good h

/-! ## Lemmas about the Go string helpers on version-parser output -/

theorem dropWhile_space_of_good {l : List Char} (h : l.all goodChar = true) :
    l.dropWhile goIsSpace = l := by
  cases l with
  | nil => rfl
  | cons c r =>
    simp only [List.all_cons, Bool.and_eq_true] at h
    simp [List.dropWhile_cons, goodChar_not_space h.1]

theorem goTrimSpace_eq_self {A : String} (h : A.data.all goodChar = true) :
    goTrimSpace A = A := by
  unfold goTrimSpace
  rw [dropWhile_space_of_good h]
  rw [dropWhile_space_of_good (by simpa using h)]
  rw [List.reverse_reverse]

theorem isPrefixList_append_self (l t : List Char) : isPrefixList l (l ++ t) = true := by
  induction l with
  | nil => rfl
  | cons c cs ih => simp [isPrefixList, ih]

theorem isPrefixList_cons_ne {p c : Char} {ps cs : List Char} (h : p ≠ c) :
    isPrefixList (p :: ps) (c :: cs) = false := by
  simp [isPrefixList, h]

theorem containsList_append {pat : List Char} (a b : List Char) (hpat : pat ≠ []) :
    containsList (a ++ (pat ++ b)) pat = true := by
  induction a with
  | nil =>
    cases pat with
    | nil => exact absurd rfl hpat
    | cons p ps =>
      show (isPrefixList (p :: ps) ((p :: ps) ++ b) || containsList (ps ++ b) (p :: ps)) = true
      rw [isPrefixList_append_self]
      rfl
  | cons c a' ih =>
    show (isPrefixList pat (c :: (a' ++ (pat ++ b))) || containsList (a' ++ (pat ++ b)) pat) = true
    rw [ih]
    simp

theorem splitOnceList_boundary {A B sep' : List Char} {sc : Char}
    (hA : ∀ c ∈ A, c ≠ sc) :
    splitOnceList (A ++ ((sc :: sep') ++ B)) (sc :: sep') = some (A, B) := by
  induction A with
  | nil =>
    simp only [List.nil_append]
    rw [show (sc :: sep') ++ B = sc :: (sep' ++ B) from rfl]
    simp only [splitOnceList]
    rw [show sc :: (sep' ++ B) = (sc :: sep') ++ B from rfl]
    rw [if_pos (isPrefixList_append_self _ _), List.drop_left]
  | cons c A' ih =>
    have hc : c ≠ sc := hA c (by simp)
    show (if isPrefixList (sc :: sep') (c :: (A' ++ ((sc :: sep') ++ B))) = true
          then some ([], (c :: (A' ++ ((sc :: sep') ++ B))).drop (sc :: sep').length)
          else
            match splitOnceList (A' ++ ((sc :: sep') ++ B)) (sc :: sep') with
            | some r => some (c :: r.1, r.2)
            | none => none) = some (c :: A', B)
    rw [if_neg (by rw [isPrefixList_cons_ne (Ne.symm hc)]; simp)]
    rw [ih (fun x hx => hA x (by simp [hx]))]

theorem goSplitN2_range {A B : String} (hA : A.data.all goodChar = true) :
    goSplitN2 (A ++ " - " ++ B) " - " = [A, B] := by
  unfold goSplitN2
  have hd : (A ++ " - " ++ B).data = A.data ++ (((' ' :: ('-' :: (' ' :: []))) ++ B.data)) := by
    simp [List.append_assoc]
  have hsep : (" - " : String).data = ' ' :: ('-' :: (' ' :: [])) := rfl
  have hne : ∀ c ∈ A.data, c ≠ ' ' := by
    intro c hc
    rw [List.all_eq_true] at hA
    exact goodChar_ne_space (hA c hc)
  rw [hd, hsep, splitOnceList_boundary hne]

theorem goHasPrefix_false_head {s pre : String} {c pc : Char} {cs ps : List Char}
    (hs : s.data = c :: cs) (hp : pre.data = pc :: ps) (h : pc ≠ c) :
    goHasPrefix s pre = false := by
  unfold goHasPrefix
  rw [hs, hp]
  exact isPrefixList_cons_ne h

theorem goContains_mid {s mid : String} {a b : List Char}
    (hs : s.data = a ++ (mid.data ++ b)) (hm : mid.data ≠ []) :
    goContains s mid = true := by
  unfold goContains
  rw [hs]
  exact containsList_append a b hm

/-- **C8.** For every version `v` and hyphenated range constraint `A - B`
whose bounds parse, `Satisfies v (A - B)` is exactly
`Compare v A >= 0 && Compare v B <= 0` (both bounds inclusive); in
particular `Satisfies "1.2.3" "1.2.0 - 1.3.0"` is true and
`Satisfies "1.2.3" "1.0.0 - 1.2.2"` is false. -/
theorem satisfies_hyphen_range :
    (∀ (v a b : Version) (A B : String),
        Parse A = some a → Parse B = some b →
        Version.Satisfies v (A ++ " - " ++ B) =
          .ok (decide (v.Compare a ≥ 0) && decide (v.Compare b ≤ 0)))
    ∧ Parse "1.2.3" = some { Major := 1, Minor := 2, Patch := 3, PreRelease := "", Build := "" }
    ∧ Version.Satisfies { Major := 1, Minor := 2, Patch := 3, PreRelease := "", Build := "" }
        "1.2.0 - 1.3.0" = .ok true
    ∧ Version.Satisfies { Major := 1, Minor := 2, Patch := 3, PreRelease := "", Build := "" }
        "1.0.0 - 1.2.2" = .ok false := by
  refine ⟨?_, rfl, rfl, rfl⟩
  intro v a b A B hA hB
  have hAg : A.data.all goodChar = true := (parseVer_good hA).2
  have hBg : B.data.all goodChar = true := (parseVer_good hB).2
  have hAne : A.data ≠ [] := (parseVer_good hA).1
  obtain ⟨c, cs, hcd⟩ : ∃ c cs, A.data = c :: cs := by
    cases hd : A.data with
    | nil => exact absurd hd hAne
    | cons c cs => exact ⟨c, cs, rfl⟩
  have hcg : goodChar c = true := by
    rw [List.all_eq_true] at hAg
    exact hAg c (by rw [hcd]; simp)
  have hb := goodChar_bounds hcg
  have hsd : (A ++ " - " ++ B).data = c :: (cs ++ ([' ', '-', ' '] ++ B.data)) := by
    simp [hcd, List.append_assoc]
  have hsd2 : (A ++ " - " ++ B).data = A.data ++ ((" - " : String).data ++ B.data) := by
    simp [List.append_assoc]
  have hne1 : ¬(A ++ " - " ++ B) = "" := by
    rw [String.ext_iff, hsd]
    simp
  have hne2 : ¬(A ++ " - " ++ B) = "*" := by
    rw [String.ext_iff, hsd]
    intro e
    rw [show ("*" : String).data = ['*'] from rfl] at e
    simp only [List.cons.injEq] at e
    have h42 : c.toNat = 42 := by rw [e.1]; rfl
    omega
  have hop : ∀ pc : Char,
      pc.toNat = 60 ∨ pc.toNat = 61 ∨ pc.toNat = 62 ∨ pc.toNat = 33 → pc ≠ c := by
    intro pc hpc e
    subst e
    omega
  have hp1 : goHasPrefix (A ++ " - " ++ B) ">=" = false :=
    goHasPrefix_false_head hsd rfl (hop '>' (by decide))
  have hp2 : goHasPrefix (A ++ " - " ++ B) "<=" = false :=
    goHasPrefix_false_head hsd rfl (hop '<' (by decide))
  have hp3 : goHasPrefix (A ++ " - " ++ B) ">" = false :=
    goHasPrefix_false_head hsd rfl (hop '>' (by decide))
  have hp4 : goHasPrefix (A ++ " - " ++ B) "<" = false :=
    goHasPrefix_false_head hsd rfl (hop '<' (by decide))
  have hp5 : goHasPrefix (A ++ " - " ++ B) "=" = false :=
    goHasPrefix_false_head hsd rfl (hop '=' (by decide))
  have hp6 : goHasPrefix (A ++ " - " ++ B) "!=" = false :=
    goHasPrefix_false_head hsd rfl (hop '!' (by decide))
  have hcont : goContains (A ++ " - " ++ B) " - " = true :=
    goContains_mid hsd2 (by decide)
  have hsplit := @goSplitN2_range A B hAg
  have htrimA : goTrimSpace A = A := goTrimSpace_eq_self hAg
  have htrimB : goTrimSpace B = B := goTrimSpace_eq_self hBg
  unfold Version.Satisfies
  rw [if_neg (by simp [hne1, hne2])]
  rw [if_neg (by rw [hp1]; simp)]
  rw [if_neg (by rw [hp2]; simp)]
  rw [if_neg (by rw [hp3]; simp)]
  rw [if_neg (by rw [hp4]; simp)]
  rw [if_neg (by rw [hp5]; simp)]
  rw [if_neg (by rw [hp6]; simp)]
  rw [if_pos hcont]
  rw [hsplit]
  simp only [htrimA, htrimB, hA, hB]

/-- Witness for the hypotheses of `satisfies_hyphen_range`: the universal part
applied at `v = 1.2.3`, `A = "1.2.0"`, `B = "1.3.0"`. -/
theorem satisfies_hyphen_range_witness :
    Version.Satisfies { Major := 1, Minor := 2, Patch := 3, PreRelease := "", Build := "" }
        ("1.2.0" ++ " - " ++ "1.3.0") =
      .ok (decide ((Version.Compare { Major := 1, Minor := 2, Patch := 3, PreRelease := "", Build := "" }
              { Major := 1, Minor := 2, Patch := 0, PreRelease := "", Build := "" }) ≥ 0) &&
           decide ((Version.Compare { Major := 1, Minor := 2, Patch := 3, PreRelease := "", Build := "" }
              { Major := 1, Minor := 3, Patch := 0, PreRelease := "", Build := "" }) ≤ 0)) :=
  satisfies_hyphen_range.1
    { Major := 1, Minor := 2, Patch := 3, PreRelease := "", Build := "" }
    { Major := 1, Minor := 2, Patch := 0, PreRelease := "", Build := "" }
    { Major := 1, Minor := 3, Patch := 0, PreRelease := "", Build := "" }
    "1.2.0" "1.3.0" rfl rfl

/-! ## C9: the claim's version-string grammar and the Parse/String round trip -/

/-- Minor component denoted by the optional minor/patch part of the grammar. -/
def minorOf : Option (Nat × Option Nat) → Nat
  | none => 0
  | some (mi, _) => mi

/-- Patch component denoted by the optional minor/patch part of the grammar. -/
def patchOf : Option (Nat × Option Nat) → Nat
  | none => 0
  | some (_, none) => 0
  | some (_, some pa) => pa

/-- The optional `+build` suffix of a version string. -/
def bldChars (build : String) : List Char :=
  if build = "" then [] else '+' :: build.data

/-- The optional `-prerelease` and `+build` suffixes of a version string. -/
def sfxChars (pre build : String) : List Char :=
  (if pre = "" then [] else '-' :: pre.data) ++ bldChars build

/-- The optional `.patch` part of a version string. -/
def patChars : Option Nat → List Char
  | none => []
  | some pa => '.' :: natToDigits pa

/-- The optional `.minor(.patch)?` part of a version string. -/
def minChars : Option (Nat × Option Nat) → List Char
  | none => []
  | some (mi, po) => '.' :: (natToDigits mi ++ patChars po)

/-- A valid version string in the grammar of the spec (§4.1), assembled from
its components: optional leading `v`, mandatory major, optional minor and then
optional patch, optional `-prerelease` and `+build` suffixes. -/
def renderChars (hasV : Bool) (major : Nat) (minPat : Option (Nat × Option Nat))
    (pre build : String) : List Char :=
  (if hasV then ['v'] else []) ++
    (natToDigits major ++ (minChars minPat ++ sfxChars pre build))

def renderVersionInput (hasV : Bool) (major : Nat) (minPat : Option (Nat × Option Nat))
    (pre build : String) : String :=
  String.mk (renderChars hasV major minPat pre build)

theorem digitCharToNat {d : Nat} (h : d < 10) : (Char.ofNat (48 + d)).toNat = 48 + d := by
  interval_cases d <;> decide

theorem digitChar_isDigit {d : Nat} (h : d < 10) : isDigitChar (Char.ofNat (48 + d)) = true := by
  have hn := digitCharToNat h
  simp only [isDigitChar, hn, Bool.and_eq_true, decide_eq_true_eq]
  omega

theorem natToDigitsGo_shift :
    ∀ fuel n acc, n < 10 ^ fuel → 0 < fuel →
      natToDigitsGo fuel n acc = natToDigitsGo fuel n [] ++ acc := by
  intro fuel
  induction fuel with
  | zero => intro n acc _ hf; exact absurd hf (by omega)
  | succ fuel ih =>
    intro n acc h _
    by_cases hn : n < 10
    · simp [natToDigitsGo, hn]
    · have hdiv : n / 10 < 10 ^ fuel := by
        rw [Nat.div_lt_iff_lt_mul (by omega)]
        calc n < 10 ^ (fuel + 1) := h
          _ = 10 ^ fuel * 10 := by rw [Nat.pow_succ]
      have hfpos : 0 < fuel := by
        by_contra hz
        have : fuel = 0 := by omega
        subst this
        simp at hdiv
        omega
      simp only [natToDigitsGo, if_neg hn]
      rw [ih _ _ hdiv hfpos, ih _ (Char.ofNat (48 + n % 10) :: []) hdiv hfpos,
        List.append_assoc]
      rfl

theorem natToDigitsGo_fuelfree :
    ∀ f1 f2 n acc, n < 10 ^ f1 → 0 < f1 → n < 10 ^ f2 → 0 < f2 →
      natToDigitsGo f1 n acc = natToDigitsGo f2 n acc := by
  intro f1
  induction f1 with
  | zero => intro f2 n acc _ hf; exact absurd hf (by omega)
  | succ f1 ih =>
    intro f2 n acc h1 _ h2 hf2
    obtain ⟨f2', rfl⟩ : ∃ f2', f2 = f2' + 1 := ⟨f2 - 1, by omega⟩
    by_cases hn : n < 10
    · simp [natToDigitsGo, hn]
    · have hd1 : n / 10 < 10 ^ f1 := by
        rw [Nat.div_lt_iff_lt_mul (by omega)]
        calc n < 10 ^ (f1 + 1) := h1
          _ = 10 ^ f1 * 10 := by rw [Nat.pow_succ]
      have hd2 : n / 10 < 10 ^ f2' := by
        rw [Nat.div_lt_iff_lt_mul (by omega)]
        calc n < 10 ^ (f2' + 1) := h2
          _ = 10 ^ f2' * 10 := by rw [Nat.pow_succ]
      have hp1 : 0 < f1 := by
        by_contra hz
        have : f1 = 0 := by omega
        subst this
        simp at hd1
        omega
      have hp2 : 0 < f2' := by
        by_contra hz
        have : f2' = 0 := by omega
        subst this
        simp at hd2
        omega
      simp only [natToDigitsGo, if_neg hn]
      exact ih _ _ _ hd1 hp1 hd2 hp2

theorem natToDigitsGo_all :
    ∀ fuel n, n < 10 ^ fuel → 0 < fuel →
      (natToDigitsGo fuel n []).all isDigitChar = true := by
  intro fuel
  induction fuel with
  | zero => intro n _ hf; exact absurd hf (by omega)
  | succ fuel ih =>
    intro n h _
    by_cases hn : n < 10
    · simp [natToDigitsGo, hn, digitChar_isDigit]
    · have hdiv : n / 10 < 10 ^ fuel := by
        rw [Nat.div_lt_iff_lt_mul (by omega)]
        calc n < 10 ^ (fuel + 1) := h
          _ = 10 ^ fuel * 10 := by rw [Nat.pow_succ]
      have hfpos : 0 < fuel := by
        by_contra hz
        have : fuel = 0 := by omega
        subst this
        simp at hdiv
        omega
      simp only [natToDigitsGo, if_neg hn]
      rw [natToDigitsGo_shift fuel _ _ hdiv hfpos]
      simp only [List.all_append, Bool.and_eq_true]
      refine ⟨ih _ hdiv hfpos, ?_⟩
      simp [digitChar_isDigit (Nat.mod_lt n (by omega))]

theorem natToDigitsGo_ne_nil :
    ∀ fuel n, n < 10 ^ fuel → 0 < fuel → natToDigitsGo fuel n [] ≠ [] := by
  intro fuel
  induction fuel with
  | zero => intro n _ hf; exact absurd hf (by omega)
  | succ fuel _ =>
    intro n h _
    by_cases hn : n < 10
    · simp [natToDigitsGo, hn]
    · have hdiv : n / 10 < 10 ^ fuel := by
        rw [Nat.div_lt_iff_lt_mul (by omega)]
        calc n < 10 ^ (fuel + 1) := h
          _ = 10 ^ fuel * 10 := by rw [Nat.pow_succ]
      have hfpos : 0 < fuel := by
        by_contra hz
        have : fuel = 0 := by omega
        subst this
        simp at hdiv
        omega
      simp only [natToDigitsGo, if_neg hn]
      rw [natToDigitsGo_shift fuel _ _ hdiv hfpos]
      simp

theorem digitsToNat_append_last (ds : List Char) (c : Char) :
    digitsToNat (ds ++ [c]) = digitsToNat ds * 10 + (c.toNat - 48) := by
  simp [digitsToNat, List.foldl_append]

theorem natToDigitsGo_val :
    ∀ fuel n, n < 10 ^ fuel → 0 < fuel →
      digitsToNat (natToDigitsGo fuel n []) = n := by
  intro fuel
  induction fuel with
  | zero => intro n _ hf; exact absurd hf (by omega)
  | succ fuel ih =>
    intro n h _
    by_cases hn : n < 10
    · simp only [natToDigitsGo, if_pos hn]
      simp [digitsToNat, digitCharToNat hn]
    · have hdiv : n / 10 < 10 ^ fuel := by
        rw [Nat.div_lt_iff_lt_mul (by omega)]
        calc n < 10 ^ (fuel + 1) := h
          _ = 10 ^ fuel * 10 := by rw [Nat.pow_succ]
      have hfpos : 0 < fuel := by
        by_contra hz
        have : fuel = 0 := by omega
        subst this
        simp at hdiv
        omega
      simp only [natToDigitsGo, if_neg hn]
      rw [natToDigitsGo_shift fuel _ _ hdiv hfpos, digitsToNat_append_last,
        ih _ hdiv hfpos, digitCharToNat (Nat.mod_lt n (by omega))]
      omega

theorem nat_lt_ten_pow_succ (n : Nat) : n < 10 ^ (n + 1) :=
  Nat.lt_of_lt_of_le (Nat.lt_pow_self (by omega) n)
    (Nat.pow_le_pow_right (by omega) (Nat.le_succ n))

theorem natToDigits_all (n : Nat) : (natToDigits n).all isDigitChar = true :=
  natToDigitsGo_all (n + 1) n (nat_lt_ten_pow_succ n) (by omega)

theorem natToDigits_ne_nil (n : Nat) : natToDigits n ≠ [] :=
  natToDigitsGo_ne_nil (n + 1) n (nat_lt_ten_pow_succ n) (by omega)

theorem digitsToNat_natToDigits (n : Nat) : digitsToNat (natToDigits n) = n :=
  natToDigitsGo_val (n + 1) n (nat_lt_ten_pow_succ n) (by omega)

theorem natToDigits_head (n : Nat) :
    ∃ c cs, natToDigits n = c :: cs ∧ isDigitChar c = true := by
  cases hd : natToDigits n with
  | nil => exact absurd hd (natToDigits_ne_nil n)
  | cons c cs =>
    refine ⟨c, cs, rfl, ?_⟩
    have := natToDigits_all n
    rw [hd, List.all_cons, Bool.and_eq_true] at this
    exact this.1

/-- `headNot p rest`: the rest of the input does not start with a `p`
character, so a greedy span stops exactly at the boundary. -/
def headNot (p : Char → Bool) : List Char → Prop
  | [] => True
  | c :: _ => p c = false

theorem spanP_exact {p : Char → Bool} {l rest : List Char}
    (hl : l.all p = true) (hr : headNot p rest) : spanP p (l ++ rest) = (l, rest) := by
  induction l with
  | nil =>
    simp only [List.nil_append]
    cases rest with
    | nil => rfl
    | cons c cs =>
      simp only [headNot] at hr
      simp [spanP, hr]
  | cons c l' ih =>
    simp only [List.all_cons, Bool.and_eq_true] at hl
    simp [spanP, hl.1, ih hl.2]

theorem headNot_digit_sfx (pre build : String) :
    headNot isDigitChar (sfxChars pre build) := by
  unfold sfxChars bldChars
  by_cases hp : pre = ""
  · rw [if_pos hp, List.nil_append]
    by_cases hb : build = ""
    · rw [if_pos hb]
      exact trivial
    · rw [if_neg hb]
      exact (by decide : isDigitChar '+' = false)
  · rw [if_neg hp]
    exact (by decide : isDigitChar '-' = false)

theorem headNot_verChar_bld (build : String) : headNot isVerChar (bldChars build) := by
  unfold bldChars
  by_cases hb : build = ""
  · rw [if_pos hb]
    exact trivial
  · rw [if_neg hb]
    exact (by decide : isVerChar '+' = false)

theorem headNot_digit_patSfx (po : Option Nat) (pre build : String) :
    headNot isDigitChar (patChars po ++ sfxChars pre build) := by
  cases po with
  | none => exact headNot_digit_sfx pre build
  | some pa => exact (by decide : isDigitChar '.' = false)

theorem headNot_digit_minSfx (minPat : Option (Nat × Option Nat)) (pre build : String) :
    headNot isDigitChar (minChars minPat ++ sfxChars pre build) := by
  cases minPat with
  | none => exact headNot_digit_sfx pre build
  | some mp =>
    obtain ⟨mi, po⟩ := mp
    exact (by decide : isDigitChar '.' = false)

theorem str_data_ne_nil {s : String} (h : s ≠ "") : s.data ≠ [] := by
  intro e
  exact h (String.ext e)

theorem parseSuffix_bld (build : String) (hbuild : build.data.all isVerChar = true) :
    parseSuffix '+' (bldChars build) = some (build, []) := by
  by_cases hb : build = ""
  · subst hb
    rfl
  · rw [show bldChars build = '+' :: build.data from if_neg hb]
    show (if (spanP isVerChar build.data).1.isEmpty = true then none
          else some (String.mk (spanP isVerChar build.data).1, (spanP isVerChar build.data).2))
        = some (build, [])
    have hspan : spanP isVerChar build.data = (build.data, []) := by
      have h0 := @spanP_exact isVerChar build.data [] hbuild trivial
      rwa [List.append_nil] at h0
    have hs1 : (spanP isVerChar build.data).1 = build.data := by rw [hspan]
    have hs2 : (spanP isVerChar build.data).2 = [] := by rw [hspan]
    rw [hs1, hs2, if_neg (by simpa using str_data_ne_nil hb)]

theorem parseSuffix_sfx (pre build : String) (hpre : pre.data.all isVerChar = true) :
    parseSuffix '-' (sfxChars pre build) = some (pre, bldChars build) := by
  by_cases hp : pre = ""
  · have hsfx : sfxChars pre build = bldChars build := by
      rw [sfxChars, if_pos hp, List.nil_append]
    rw [hsfx]
    subst hp
    by_cases hb : build = ""
    · subst hb
      rfl
    · rw [show bldChars build = '+' :: build.data from if_neg hb]
      rfl
  · have hsfx : sfxChars pre build = '-' :: (pre.data ++ bldChars build) := by
      rw [sfxChars, if_neg hp]
      rfl
    rw [hsfx]
    show (if (spanP isVerChar (pre.data ++ bldChars build)).1.isEmpty = true then none
          else some (String.mk (spanP isVerChar (pre.data ++ bldChars build)).1,
            (spanP isVerChar (pre.data ++ bldChars build)).2))
        = some (pre, bldChars build)
    have hspan : spanP isVerChar (pre.data ++ bldChars build) = (pre.data, bldChars build) :=
      spanP_exact hpre (headNot_verChar_bld build)
    have hs1 : (spanP isVerChar (pre.data ++ bldChars build)).1 = pre.data := by rw [hspan]
    have hs2 : (spanP isVerChar (pre.data ++ bldChars build)).2 = bldChars build := by
      rw [hspan]
    rw [hs1, hs2, if_neg (by simpa using str_data_ne_nil hp)]

theorem parseDotNum_not_dot {c : Char} {cs' : List Char} (h : ¬c = '.') :
    parseDotNum (c :: cs') = some (none, c :: cs') := by
  simp [parseDotNum, h]

theorem parseDotNum_sfx (pre build : String) :
    parseDotNum (sfxChars pre build) = some (none, sfxChars pre build) := by
  unfold sfxChars bldChars
  by_cases hp : pre = "" <;> by_cases hb : build = "" <;>
    simp [hp, hb, parseDotNum]

theorem parseDotNum_numPrefix (k : Nat) (rest : List Char)
    (hr : headNot isDigitChar rest) :
    parseDotNum ('.' :: (natToDigits k ++ rest)) = some (some k, rest) := by
  show (if (spanP isDigitChar (natToDigits k ++ rest)).1.isEmpty = true then none
        else some (some (digitsToNat (spanP isDigitChar (natToDigits k ++ rest)).1),
          (spanP isDigitChar (natToDigits k ++ rest)).2))
      = some (some k, rest)
  have hspan : spanP isDigitChar (natToDigits k ++ rest) = (natToDigits k, rest) :=
    spanP_exact (natToDigits_all k) hr
  have hs1 : (spanP isDigitChar (natToDigits k ++ rest)).1 = natToDigits k := by rw [hspan]
  have hs2 : (spanP isDigitChar (natToDigits k ++ rest)).2 = rest := by rw [hspan]
  rw [hs1, hs2, if_neg (by simpa using natToDigits_ne_nil k), digitsToNat_natToDigits]

/-- Core of C9 (no minor/patch): the anchored match on `major` plus the
suffixes recovers the components with minor and patch defaulting to 0. -/
theorem parseMain_sfx (major : Nat) (pre build : String)
    (hpre : pre.data.all isVerChar = true) (hbuild : build.data.all isVerChar = true) :
    parseMain (natToDigits major ++ sfxChars pre build) =
      some { Major := major, Minor := 0, Patch := 0, PreRelease := pre, Build := build } := by
  have hspan : spanP isDigitChar (natToDigits major ++ sfxChars pre build)
      = (natToDigits major, sfxChars pre build) :=
    spanP_exact (natToDigits_all major) (headNot_digit_sfx pre build)
  have hs1 : (spanP isDigitChar (natToDigits major ++ sfxChars pre build)).1
      = natToDigits major := by rw [hspan]
  have hs2 : (spanP isDigitChar (natToDigits major ++ sfxChars pre build)).2
      = sfxChars pre build := by rw [hspan]
  unfold parseMain
  rw [hs2, hs1, if_neg (by simpa using natToDigits_ne_nil major)]
  simp [parseDotNum_sfx pre build, parseSuffix_sfx pre build hpre,
    parseSuffix_bld build hbuild, digitsToNat_natToDigits]

/-- Core of C9 (minor, no patch). -/
theorem parseMain_min (major mi : Nat) (pre build : String)
    (hpre : pre.data.all isVerChar = true) (hbuild : build.data.all isVerChar = true) :
    parseMain (natToDigits major ++ ('.' :: (natToDigits mi ++ sfxChars pre build))) =
      some { Major := major, Minor := mi, Patch := 0, PreRelease := pre, Build := build } := by
  have hhead : headNot isDigitChar ('.' :: (natToDigits mi ++ sfxChars pre build)) :=
    (by decide : isDigitChar '.' = false)
  have hspan : spanP isDigitChar
        (natToDigits major ++ ('.' :: (natToDigits mi ++ sfxChars pre build)))
      = (natToDigits major, '.' :: (natToDigits mi ++ sfxChars pre build)) :=
    spanP_exact (natToDigits_all major) hhead
  have hs1 := congrArg Prod.fst hspan
  have hs2 := congrArg Prod.snd hspan
  unfold parseMain
  rw [hs2, hs1, if_neg (by simpa using natToDigits_ne_nil major)]
  simp [parseDotNum_numPrefix mi (sfxChars pre build) (headNot_digit_sfx pre build),
    parseDotNum_sfx pre build, parseSuffix_sfx pre build hpre,
    parseSuffix_bld build hbuild, digitsToNat_natToDigits]

/-- Core of C9 (minor and patch). -/
theorem parseMain_minPat (major mi pa : Nat) (pre build : String)
    (hpre : pre.data.all isVerChar = true) (hbuild : build.data.all isVerChar = true) :
    parseMain (natToDigits major ++
        ('.' :: (natToDigits mi ++ ('.' :: (natToDigits pa ++ sfxChars pre build))))) =
      some { Major := major, Minor := mi, Patch := pa, PreRelease := pre, Build := build } := by
  have hhead : headNot isDigitChar
      ('.' :: (natToDigits mi ++ ('.' :: (natToDigits pa ++ sfxChars pre build)))) :=
    (by decide : isDigitChar '.' = false)
  have hhead2 : headNot isDigitChar ('.' :: (natToDigits pa ++ sfxChars pre build)) :=
    (by decide : isDigitChar '.' = false)
  have hspan : spanP isDigitChar (natToDigits major ++
        ('.' :: (natToDigits mi ++ ('.' :: (natToDigits pa ++ sfxChars pre build)))))
      = (natToDigits major,
          '.' :: (natToDigits mi ++ ('.' :: (natToDigits pa ++ sfxChars pre build)))) :=
    spanP_exact (natToDigits_all major) hhead
  have hs1 := congrArg Prod.fst hspan
  have hs2 := congrArg Prod.snd hspan
  unfold parseMain
  rw [hs2, hs1, if_neg (by simpa using natToDigits_ne_nil major)]
  simp [parseDotNum_numPrefix mi ('.' :: (natToDigits pa ++ sfxChars pre build)) hhead2,
    parseDotNum_numPrefix pa (sfxChars pre build) (headNot_digit_sfx pre build),
    parseSuffix_sfx pre build hpre, parseSuffix_bld build hbuild,
    digitsToNat_natToDigits]

/-- Core of C9: the anchored part of the parse succeeds on every rendered
version body and recovers exactly the rendered components. -/
theorem parseMain_render (major : Nat) (minPat : Option (Nat × Option Nat))
    (pre build : String)
    (hpre : pre.data.all isVerChar = true) (hbuild : build.data.all isVerChar = true) :
    parseMain (natToDigits major ++ (minChars minPat ++ sfxChars pre build)) =
      some { Major := major, Minor := minorOf minPat, Patch := patchOf minPat,
             PreRelease := pre, Build := build } := by
  cases minPat with
  | none => exact parseMain_sfx major pre build hpre hbuild
  | some mp =>
    obtain ⟨mi, po⟩ := mp
    cases po with
    | none =>
      have harg : minChars (some (mi, none)) ++ sfxChars pre build
          = '.' :: (natToDigits mi ++ sfxChars pre build) := by
        simp [minChars, patChars]
      rw [harg]
      exact parseMain_min major mi pre build hpre hbuild
    | some pa =>
      have harg : minChars (some (mi, some pa)) ++ sfxChars pre build
          = '.' :: (natToDigits mi ++ ('.' :: (natToDigits pa ++ sfxChars pre build))) := by
        simp [minChars, patChars, List.append_assoc]
      rw [harg]
      exact parseMain_minPat major mi pa pre build hpre hbuild

/-- C9 helper: `parseVer` on any rendered input (with or without the `v`). -/
theorem parseVer_render (hasV : Bool) (major : Nat) (minPat : Option (Nat × Option Nat))
    (pre build : String)
    (hpre : pre.data.all isVerChar = true) (hbuild : build.data.all isVerChar = true) :
    parseVer (renderChars hasV major minPat pre build) =
      some { Major := major, Minor := minorOf minPat, Patch := patchOf minPat,
             PreRelease := pre, Build := build } := by
  cases hasV with
  | true =>
    show parseMain (stripV ('v' :: (natToDigits major ++ (minChars minPat ++ sfxChars pre build))))
        = _
    rw [show stripV ('v' :: (natToDigits major ++ (minChars minPat ++ sfxChars pre build)))
        = natToDigits major ++ (minChars minPat ++ sfxChars pre build) from rfl]
    exact parseMain_render major minPat pre build hpre hbuild
  | false =>
    obtain ⟨c0, cs0, hc0, hd0⟩ := natToDigits_head major
    have hv : ¬c0 = 'v' := by
      intro e
      subst e
      exact absurd hd0 (by decide)
    show parseMain (stripV (natToDigits major ++ (minChars minPat ++ sfxChars pre build))) = _
    rw [hc0, List.cons_append]
    rw [show stripV (c0 :: (cs0 ++ (minChars minPat ++ sfxChars pre build)))
        = c0 :: (cs0 ++ (minChars minPat ++ sfxChars pre build)) from by
      simp [stripV, hv]]
    rw [← List.cons_append, ← hc0]
    exact parseMain_render major minPat pre build hpre hbuild

/-- `Version.String` produces exactly the rendered normalized form: all three
numeric components, followed by the original prerelease and build suffixes. -/
theorem toString_eq_render (M mi pa : Nat) (pre build : String) :
    Version.toString { Major := M, Minor := mi, Patch := pa, PreRelease := pre, Build := build }
      = renderVersionInput false M (some (mi, some pa)) pre build := by
  rw [String.ext_iff]
  show (natStr M ++ "." ++ natStr mi ++ "." ++ natStr pa ++
      (if pre ≠ "" then "-" ++ pre else "") ++
      (if build ≠ "" then "+" ++ build else "")).data
    = renderChars false M (some (mi, some pa)) pre build
  have hdot : ("." : String).data = ['.'] := rfl
  have hdash : ("-" : String).data = ['-'] := rfl
  have hplus : ("+" : String).data = ['+'] := rfl
  have hns : ∀ n : Nat, (natStr n).data = natToDigits n := fun _ => rfl
  by_cases hp : pre = "" <;> by_cases hb : build = "" <;>
    simp [hp, hb, renderChars, minChars, patChars, sfxChars, bldChars,
      String.data_append, hdot, hdash, hplus, hns, List.append_assoc]

/-- **C9.** Every valid version string — optional leading `v`, mandatory
major, optional minor then optional patch (missing components default to 0),
optional `-prerelease` and `+build` suffixes over the class `[0-9A-Za-z.-]` —
parses successfully; rendering the result with `String` yields the normalized
form with all three numeric components and the original suffixes (e.g.
`"v1.2"` normalizes to `"1.2.0"`); and parsing the normalized form again
yields an equal `Version`. -/
theorem parse_render_roundtrip :
    ∀ (hasV : Bool) (major : Nat) (minPat : Option (Nat × Option Nat)) (pre build : String),
      pre.data.all isVerChar = true → build.data.all isVerChar = true →
      Parse (renderVersionInput hasV major minPat pre build) =
          some { Major := major, Minor := minorOf minPat, Patch := patchOf minPat,
                 PreRelease := pre, Build := build }
        ∧ Version.toString
              { Major := major, Minor := minorOf minPat, Patch := patchOf minPat,
                PreRelease := pre, Build := build }
            = renderVersionInput false major
                (some (minorOf minPat, some (patchOf minPat))) pre build
        ∧ Parse (Version.toString
              { Major := major, Minor := minorOf minPat, Patch := patchOf minPat,
                PreRelease := pre, Build := build })
            = some { Major := major, Minor := minorOf minPat, Patch := patchOf minPat,
                     PreRelease := pre, Build := build } := by
  intro hasV major minPat pre build hpre hbuild
  refine ⟨parseVer_render hasV major minPat pre build hpre hbuild,
    toString_eq_render major (minorOf minPat) (patchOf minPat) pre build, ?_⟩
  rw [toString_eq_render]
  exact parseVer_render false major (some (minorOf minPat, some (patchOf minPat)))
    pre build hpre hbuild

/-- Witness for `parse_render_roundtrip`: the grammar instance `"v1.2"`
(leading `v`, major 1, minor 2, no patch, no suffixes), with each hypothesis
discharged concretely; its normalized form is `"1.2.0"`. -/
theorem parse_render_roundtrip_witness :
    ("" : String).data.all isVerChar = true
    ∧ renderVersionInput true 1 (some (2, none)) "" "" = "v1.2"
    ∧ Version.toString { Major := 1, Minor := 2, Patch := 0, PreRelease := "", Build := "" }
        = "1.2.0"
    ∧ (Parse (renderVersionInput true 1 (some (2, none)) "" "") =
          some { Major := 1, Minor := 2, Patch := 0, PreRelease := "", Build := "" }
        ∧ Version.toString { Major := 1, Minor := 2, Patch := 0, PreRelease := "", Build := "" }
            = renderVersionInput false 1 (some (2, some 0)) "" ""
        ∧ Parse (Version.toString
              { Major := 1, Minor := 2, Patch := 0, PreRelease := "", Build := "" }) =
            some { Major := 1, Minor := 2, Patch := 0, PreRelease := "", Build := "" }) :=
  ⟨rfl, rfl, rfl, parse_render_roundtrip true 1 (some (2, none)) "" "" rfl rfl⟩

/-! ## Package-name mapping (installer.go: packageMappings, GetPackageName) -/

/-- `types.PackageManagerType` is a string type with nine constants. -/
abbrev PackageManagerType := String

def TypeApt : PackageManagerType := "apt"
def TypeDnf : PackageManagerType := "dnf"
def TypeYum : PackageManagerType := "yum"
def TypePacman : PackageManagerType := "pacman"
def TypeSnap : PackageManagerType := "snap"
def TypeHomebrew : PackageManagerType := "homebrew"
def TypeChocolatey : PackageManagerType := "chocolatey"
def TypeScoop : PackageManagerType := "scoop"
def TypeWinget : PackageManagerType := "winget"

/-- `PackageMapping` (installer.go); the Go map is modelled as an
association list, which only ever gets looked up by key. -/
structure PackageMapping where
  Name : String
  Description : String
  Packages : List (PackageManagerType × String)
deriving DecidableEq

/-- Association-list lookup: model of the comma-ok map index `m[k]`. -/
def lookupPM : List (PackageManagerType × String) → PackageManagerType → Option String
  | [], _ => none
  | (k, v) :: rest, t => if k = t then some v else lookupPM rest t

def nodejsMapping : PackageMapping :=
  { Name := "nodejs", Description := "Node.js JavaScript runtime",
    Packages := [(TypeApt, "nodejs"), (TypeDnf, "nodejs"), (TypeYum, "nodejs"),
      (TypePacman, "nodejs"), (TypeHomebrew, "node"), (TypeChocolatey, "nodejs"),
      (TypeScoop, "nodejs"), (TypeWinget, "OpenJS.NodeJS")] }

def python3Mapping : PackageMapping :=
  { Name := "python3", Description := "Python 3 interpreter",
    Packages := [(TypeApt, "python3"), (TypeDnf, "python3"), (TypeYum, "python3"),
      (TypePacman, "python"), (TypeHomebrew, "python"), (TypeChocolatey, "python"),
      (TypeScoop, "python"), (TypeWinget, "Python.Python.3")] }

def gitMapping : PackageMapping :=
  { Name := "git", Description := "Distributed version control system",
    Packages := [(TypeApt, "git"), (TypeDnf, "git"), (TypeYum, "git"),
      (TypePacman, "git"), (TypeHomebrew, "git"), (TypeChocolatey, "git"),
      (TypeScoop, "git"), (TypeWinget, "Git.Git")] }

def postgresqlMapping : PackageMapping :=
  { Name := "postgresql", Description := "PostgreSQL database server",
    Packages := [(TypeApt, "postgresql"), (TypeDnf, "postgresql-server"),
      (TypeYum, "postgresql-server"), (TypePacman, "postgresql"),
      (TypeHomebrew, "postgresql@14"), (TypeChocolatey, "postgresql"),
      (TypeScoop, "postgresql"), (TypeWinget, "PostgreSQL.pgAdmin")] }

def dockerMapping : PackageMapping :=
  { Name := "docker", Description := "Docker container platform",
    Packages := [(TypeApt, "docker.io"), (TypeDnf, "docker"), (TypeYum, "docker"),
      (TypePacman, "docker"), (TypeHomebrew, "docker"), (TypeChocolatey, "docker-desktop"),
      (TypeScoop, "docker"), (TypeWinget, "Docker.DockerDesktop")] }

/-- The static `packageMappings` seed table (installer.go). -/
def packageMappings : List PackageMapping :=
  [nodejsMapping, python3Mapping, gitMapping, postgresqlMapping, dockerMapping]

/-- The lookup loop of `GetPackageName`: first case-insensitive name match
wins; a matching entry without a name for the requested manager is an error;
no matching entry at all falls back to the original name. -/
def getPackageNameFrom (pkg : String) (pmType : PackageManagerType) :
    List PackageMapping → Except String String
  | [] => .ok pkg
  | m :: rest =>
    if goEqualFold m.Name pkg then
      match lookupPM m.Packages pmType with
      | some n => .ok n
      | none => .error ("no mapping found for package '" ++ pkg ++
          "' on package manager " ++ pmType)
    else getPackageNameFrom pkg pmType rest

/-- `GetPackageName` (installer.go). -/
def GetPackageName (pkg : String) (pmType : PackageManagerType) : Except String String :=
  getPackageNameFrom pkg pmType packageMappings

theorem getPackageNameFrom_all_false {pkg : String} {t : PackageManagerType}
    {ms : List PackageMapping} (h : ∀ m ∈ ms, goEqualFold m.Name pkg = false) :
    getPackageNameFrom pkg t ms = .ok pkg := by
  induction ms with
  | nil => rfl
  | cons m rest ih =>
    have hm : goEqualFold m.Name pkg = false := h m (by simp)
    simp only [getPackageNameFrom, hm]
    exact ih (fun x hx => h x (by simp [hx]))

theorem getPackageNameFrom_error {pkg : String} {t : PackageManagerType}
    {ms : List PackageMapping} {m : PackageMapping}
    (hfind : ms.find? (fun m => goEqualFold m.Name pkg) = some m)
    (hnone : lookupPM m.Packages t = none) :
    ∃ e, getPackageNameFrom pkg t ms = .error e := by
  induction ms with
  | nil => simp at hfind
  | cons m0 rest ih =>
    by_cases h0 : goEqualFold m0.Name pkg = true
    · simp only [List.find?, h0] at hfind
      cases hfind
      refine ⟨"no mapping found for package '" ++ pkg ++ "' on package manager " ++ t, ?_⟩
      simp only [getPackageNameFrom, h0, if_true, hnone]
    · have h0' : goEqualFold m0.Name pkg = false := by simpa using h0
      simp only [List.find?, h0'] at hfind
      have := ih hfind
      simpa [getPackageNameFrom, h0'] using this

/-- **C6.** `GetPackageName` looks the logical name up case-insensitively;
with no mapping entry at all it returns the original name without error;
with an entry that lacks a name for the requested manager type it returns an
error; `GetPackageName "nodejs" TypeHomebrew = "node"` and
`GetPackageName "unknown-logical-name" TypeApt` falls back unchanged. -/
theorem getPackageName_spec :
    (∀ (pkg : String) (t : PackageManagerType),
        (∀ m ∈ packageMappings, goEqualFold m.Name pkg = false) →
        GetPackageName pkg t = .ok pkg)
    ∧ (∀ (pkg : String) (t : PackageManagerType) (m : PackageMapping),
        packageMappings.find? (fun m => goEqualFold m.Name pkg) = some m →
        lookupPM m.Packages t = none →
        ∃ e, GetPackageName pkg t = .error e)
    ∧ GetPackageName "nodejs" TypeHomebrew = .ok "node"
    ∧ GetPackageName "NodeJS" TypeHomebrew = .ok "node"
    ∧ GetPackageName "unknown-logical-name" TypeApt = .ok "unknown-logical-name" := by
  refine ⟨?_, ?_, rfl, rfl, rfl⟩
  · intro pkg t h
    exact getPackageNameFrom_all_false h
  · intro pkg t m hfind hnone
    exact getPackageNameFrom_error hfind hnone

/-- Witness for `getPackageName_spec`: the fallback branch at the unmapped
name `"left-pad"`, and the error branch at `"nodejs"` with manager `snap`
(the nodejs entry has no snap name). -/
theorem getPackageName_spec_witness :
    ((∀ m ∈ packageMappings, goEqualFold m.Name "left-pad" = false)
      ∧ GetPackageName "left-pad" TypeApt = .ok "left-pad")
    ∧ (packageMappings.find? (fun m => goEqualFold m.Name "nodejs") = some nodejsMapping
      ∧ lookupPM nodejsMapping.Packages TypeSnap = none
      ∧ ∃ e, GetPackageName "nodejs" TypeSnap = .error e) :=
  ⟨⟨by decide, getPackageName_spec.1 "left-pad" TypeApt (by decide)⟩,
   ⟨by decide, by decide,
    getPackageName_spec.2.1 "nodejs" TypeSnap nodejsMapping (by decide) (by decide)⟩⟩

/-! ## Orchestrator: installWithMapping and batchInstall (installer.go)

The driver behind the `types.Installer` interface is abstracted as a record
of response functions; each embedded orchestrator function additionally
returns the trace of install calls it made on the driver. -/

/-- The typed error values of pkg/types (plus wrapped catch-all errors). -/
inductive GoErr where
  | packageNotFound (pkg : String)
  | packageAlreadyInstalled (pkg : String)
  | wrapped (msg : String)
deriving DecidableEq

/-- `err.Error()` for the modelled error values. -/
def GoErr.message : GoErr → String
  | .packageNotFound p => "package " ++ p ++ " not found in repository"
  | .packageAlreadyInstalled p => "package " ++ p ++ " is already installed"
  | .wrapped m => m

/-- The type assertion `err.(*types.PackageNotFoundError)`. -/
def GoErr.isNotFound : GoErr → Bool
  | .packageNotFound _ => true
  | _ => false

/-- `types.PackageVersionInfo`. -/
structure PackageVersionInfo where
  Name : String
  Version : String
  Latest : String
  Satisfies : Bool
  Constraint : String
deriving DecidableEq

/-- One install call recorded against the abstract driver. -/
inductive Attempt where
  | instPkg (pkg : String)
  | instVer (pkg : String) (constraint : String)
deriving DecidableEq

/-- An installer driver as the orchestrator sees it (`types.Installer`):
response of `InstallPackage` and `InstallVersion` per package name, and of
`CheckVersion` (error and info results as in Go). -/
structure ODriver where
  typeTag : PackageManagerType
  installPackage : String → Option GoErr
  installVersion : String → String → Option GoErr
  checkVersion : String → String → Option GoErr × Option PackageVersionInfo

/-- The Go condition `err == nil && info != nil && info.Satisfies`. -/
def infoSatisfies : Option PackageVersionInfo → Bool
  | some i => i.Satisfies
  | none => false

/-- The unversioned install flow shared by both `installWithMapping`
variants: install the mapped name; on `PackageNotFoundError` with a mapped
name different from the original, retry exactly once with the original. -/
def installUnversioned (d : ODriver) (pkg mappedPkg : String) :
    Option GoErr × List Attempt :=
  match d.installPackage mappedPkg with
  | none => (none, [.instPkg mappedPkg])
  | some e =>
    if e.isNotFound = true ∧ mappedPkg ≠ pkg
    then (d.installPackage pkg, [.instPkg mappedPkg, .instPkg pkg])
    else (some e, [.instPkg mappedPkg])

/-- `installWithMapping` (installer.go; the variadic-version variant, which
subsumes the unversioned variant as `version = none`): map the name, fall
back to the original on an empty mapping result, short-circuit when the
installed version already satisfies the constraint, then install with a
single not-found retry under the original name. -/
def installWithMapping (d : ODriver) (pkg : String) (version : Option String) :
    Option GoErr × List Attempt :=
  match GetPackageName pkg d.typeTag with
  | .error e => (some (.wrapped ("package mapping error: " ++ e)), [])
  | .ok mapped0 =>
    let mappedPkg := if mapped0 = "" then pkg else mapped0
    match version with
    | some c =>
      if c = "" then installUnversioned d pkg mappedPkg
      else
        let cv := d.checkVersion mappedPkg c
        if (cv.1.isNone && infoSatisfies cv.2) = true then (none, [])
        else
          match d.installVersion mappedPkg c with
          | none => (none, [.instVer mappedPkg c])
          | some e =>
            if e.isNotFound = true ∧ mappedPkg ≠ pkg
            then (d.installVersion pkg c, [.instVer mappedPkg c, .instVer pkg c])
            else (some e, [.instVer mappedPkg c])
    | none => installUnversioned d pkg mappedPkg

/-- The accumulation loop of `batchInstall` (installer.go): attempt every
package in order, collect `"pkg: err"` entries for the failures. -/
def batchInstallGo (d : ODriver) : List String → List String × List Attempt
  | [] => ([], [])
  | pkg :: rest =>
    let r := installWithMapping d pkg none
    let tail := batchInstallGo d rest
    match r.1 with
    | some e => ((pkg ++ ": " ++ e.message) :: tail.1, r.2 ++ tail.2)
    | none => (tail.1, r.2 ++ tail.2)

/-- `batchInstall` (installer.go): the loop above followed by the aggregate
error (`nil` when nothing failed). -/
def batchInstall (d : ODriver) (packages : List String) : Option String × List Attempt :=
  let acc := batchInstallGo d packages
  (if acc.1.isEmpty then none
   else some ("failed to install packages: " ++ goJoin "; " acc.1), acc.2)

/-- The per-package failure messages, declaratively. -/
def failedMsgs (d : ODriver) (packages : List String) : List String :=
  packages.filterMap fun p =>
    ((installWithMapping d p none).1).map fun e => p ++ ": " ++ e.message

theorem batchInstallGo_eq (d : ODriver) (packages : List String) :
    batchInstallGo d packages =
      (failedMsgs d packages,
       packages.flatMap fun p => (installWithMapping d p none).2) := by
  induction packages with
  | nil => rfl
  | cons pkg rest ih =>
    simp only [batchInstallGo, ih, failedMsgs, List.filterMap_cons, List.flatMap_cons]
    cases h : (installWithMapping d pkg none).1 with
    | none => simp [h, failedMsgs]
    | some e => simp [h, failedMsgs]

/-- A driver for the concrete batch scenario: installing `"bad-package"`
fails, everything else succeeds. -/
def demoDriver : ODriver :=
  { typeTag := TypeApt,
    installPackage := fun p => if p = "bad-package" then some (.wrapped "boom") else none,
    installVersion := fun _ _ => none,
    checkVersion := fun _ _ => (none, none) }

/-- **C4.** The batch install attempts every package in the caller-supplied
order (the driver trace is the concatenation of the per-package traces, so a
package after a failing one is still attempted), a per-package failure does
not stop the loop, the operation succeeds exactly when no package failed,
and otherwise returns one combined error listing exactly the failed packages
in order; concretely, with `"bad-package"` failing and `"good-package"`
succeeding, the aggregate error names only `"bad-package"` and
`"good-package"` is still installed. -/
theorem batchInstall_spec :
    (∀ (d : ODriver) (packages : List String),
      (batchInstall d packages).2
          = packages.flatMap (fun p => (installWithMapping d p none).2)
        ∧ ((batchInstall d packages).1 = none ↔
            ∀ p ∈ packages, (installWithMapping d p none).1 = none)
        ∧ (batchInstall d packages).1 =
            (if failedMsgs d packages = [] then none
             else some ("failed to install packages: " ++ goJoin "; " (failedMsgs d packages))))
    ∧ batchInstall demoDriver ["bad-package", "good-package"]
        = (some "failed to install packages: bad-package: boom",
           [.instPkg "bad-package", .instPkg "good-package"]) := by
  constructor
  · intro d packages
    have hgo := batchInstallGo_eq d packages
    refine ⟨?_, ?_, ?_⟩
    · simp [batchInstall, hgo]
    · simp only [batchInstall, hgo]
      constructor
      · intro h
        by_cases he : failedMsgs d packages = []
        · rw [failedMsgs, List.filterMap_eq_nil_iff] at he
          intro p hp
          have := he p hp
          simpa using this
        · rw [if_neg (by simpa using he)] at h
          exact absurd h (by simp)
      · intro h
        have he : failedMsgs d packages = [] := by
          rw [failedMsgs, List.filterMap_eq_nil_iff]
          intro p hp
          simp [h p hp]
        rw [if_pos (by simpa using he)]
    · simp only [batchInstall, hgo]
      by_cases he : failedMsgs d packages = []
      · rw [if_pos (by simpa using he), if_pos he]
      · rw [if_neg (by simpa using he), if_neg he]
  · rfl

/-- **C5.** When the mapped name differs from the original and the driver
reports `PackageNotFoundError` for it, the orchestrator retries exactly once
with the original name (trace `[mapped, pkg]`) and returns the retry's
result; for any other error, or when the mapped name equals the original, no
retry happens and the driver's error is returned.  Both the unversioned and
the version-constrained install paths behave this way. -/
theorem installWithMapping_retry :
    ∀ (d : ODriver) (pkg mapped : String),
      GetPackageName pkg d.typeTag = .ok mapped → mapped ≠ "" →
      ((∀ q, d.installPackage mapped = some (.packageNotFound q) → mapped ≠ pkg →
          installWithMapping d pkg none
            = (d.installPackage pkg, [.instPkg mapped, .instPkg pkg]))
        ∧ (∀ e, d.installPackage mapped = some e →
            (e.isNotFound = false ∨ mapped = pkg) →
            installWithMapping d pkg none = (some e, [.instPkg mapped]))
        ∧ (∀ c q, c ≠ "" →
            ((d.checkVersion mapped c).1.isNone
              && infoSatisfies (d.checkVersion mapped c).2) = false →
            d.installVersion mapped c = some (.packageNotFound q) → mapped ≠ pkg →
            installWithMapping d pkg (some c)
              = (d.installVersion pkg c, [.instVer mapped c, .instVer pkg c]))
        ∧ (∀ c e, c ≠ "" →
            ((d.checkVersion mapped c).1.isNone
              && infoSatisfies (d.checkVersion mapped c).2) = false →
            d.installVersion mapped c = some e →
            (e.isNotFound = false ∨ mapped = pkg) →
            installWithMapping d pkg (some c) = (some e, [.instVer mapped c]))) := by
  intro d pkg mapped hmap hne
  have hmapped : (if mapped = "" then pkg else mapped) = mapped := if_neg hne
  refine ⟨?_, ?_, ?_, ?_⟩
  · intro q hinst hnepkg
    simp only [installWithMapping, hmap, hmapped, installUnversioned, hinst]
    rw [if_pos ⟨rfl, hnepkg⟩]
  · intro e hinst hcase
    simp only [installWithMapping, hmap, hmapped, installUnversioned, hinst]
    rw [if_neg ?_]
    rintro ⟨hnf, hnepkg⟩
    rcases hcase with h | h
    · rw [hnf] at h
      exact absurd h (by simp)
    · exact hnepkg h
  · intro c q hc hcv hinst hnepkg
    simp only [installWithMapping, hmap, hmapped, if_neg hc, hcv, hinst]
    rw [if_neg (by simp)]
    rw [if_pos ⟨rfl, hnepkg⟩]
  · intro c e hc hcv hinst hcase
    simp only [installWithMapping, hmap, hmapped, if_neg hc, hcv, hinst]
    rw [if_neg (by simp)]
    rw [if_neg ?_]
    rintro ⟨hnf, hnepkg⟩
    rcases hcase with h | h
    · rw [hnf] at h
      exact absurd h (by simp)
    · exact hnepkg h

/-- A driver for the retry scenarios: under the homebrew tag the mapping
table sends `"nodejs"` to `"node"`; this driver reports not-found for
`"node"` and succeeds for `"nodejs"`, so the retry with the original name
is observable. -/
def retryDriver : ODriver :=
  { typeTag := TypeHomebrew,
    installPackage := fun p => if p = "node" then some (.packageNotFound "node") else none,
    installVersion := fun p _ => if p = "node" then some (.packageNotFound "node") else none,
    checkVersion := fun _ _ => (some (.wrapped "probe failed"), none) }

/-- Witness for `installWithMapping_retry`: under `retryDriver`, installing
logical `"nodejs"` maps to `"node"`, gets not-found, and is retried exactly
once with the original name, which succeeds; both paths exercised. -/
theorem installWithMapping_retry_witness :
    (GetPackageName "nodejs" TypeHomebrew = .ok "node" ∧ "node" ≠ ""
      ∧ retryDriver.installPackage "node" = some (.packageNotFound "node")
      ∧ "node" ≠ "nodejs")
    ∧ installWithMapping retryDriver "nodejs" none
        = (retryDriver.installPackage "nodejs", [.instPkg "node", .instPkg "nodejs"])
    ∧ installWithMapping retryDriver "nodejs" (some "18.0.0")
        = (retryDriver.installVersion "nodejs" "18.0.0",
           [.instVer "node" "18.0.0", .instVer "nodejs" "18.0.0"]) :=
  ⟨⟨rfl, by decide, rfl, by decide⟩,
   (installWithMapping_retry retryDriver "nodejs" "node" rfl (by decide)).1 "node" rfl
     (by decide),
   (installWithMapping_retry retryDriver "nodejs" "node" rfl (by decide)).2.2.1 "18.0.0"
     "node" (by decide) rfl rfl (by decide)⟩

/-! ## Package-manager drivers over an abstract command oracle

Each driver shells out through `basePackageManager.runCommand`; the external
world is abstracted as a function from argument vectors to command results,
and every embedded driver operation also returns the trace of commands it
issued. -/

/-- Result of executing one external command: combined output on success, or
error text plus combined output on a non-zero exit. -/
inductive CmdResult where
  | ok (out : String)
  | fail (errMsg out : String)

/-- The external world: the outcome of every possible command invocation. -/
def World : Type := List String → CmdResult

/-- The trace of commands a driver operation issued, in order. -/
abbrev Trace := List (List String)

/-- `basePackageManager.runCommand` (base.go): combined output on success;
on failure a wrapped error carrying the combined output (the Go function
returns `""` as the output value in that case). -/
def runCommand (w : World) (args : List String) : Except String String :=
  match w args with
  | .ok out => .ok out
  | .fail e out => .error ("command failed: " ++ e ++ "\nOutput: " ++ out)

/-- The output value Go's `runCommand` hands back for `dpkg -l` when the
caller ignores the error (`output, _ := a.runCommand(...)`): the combined
output on success and `""` on failure. -/
def aptFallbackOut (w : World) (pkg : String) : String :=
  match runCommand w ["dpkg", "-l", pkg] with
  | .ok o => o
  | .error _ => ""

/-- `apt.checkIfInstalled` (the apt driver of the detector list): probe
`dpkg -s`; on probe failure consult `dpkg -l` (error ignored) and look for
the package name and an `ii` marker.  Never returns a non-nil error. -/
def aptCheckIfInstalled (w : World) (pkg : String) : (Bool × Option String) × Trace :=
  match runCommand w ["dpkg", "-s", pkg] with
  | .ok _ => ((true, none), [["dpkg", "-s", pkg]])
  | .error _ =>
    let out2 := aptFallbackOut w pkg
    ((goContains out2 pkg && goContains out2 "ii", none),
     [["dpkg", "-s", pkg], ["dpkg", "-l", pkg]])

/-- `apt.InstallPackage` (same file): check installed state, treat installed
as `PackageAlreadyInstalledError`, otherwise run the non-interactive
install. -/
def aptInstallPackage (w : World) (pkg : String) : Option GoErr × Trace :=
  let chk := aptCheckIfInstalled w pkg
  match chk.1.2 with
  | some e => (some (.wrapped ("failed to check if package is installed: " ++ e)), chk.2)
  | none =>
    if chk.1.1 then (some (.packageAlreadyInstalled pkg), chk.2)
    else
      match runCommand w ["install", "--assume-yes", pkg] with
      | .ok _ => (none, chk.2 ++ [["install", "--assume-yes", pkg]])
      | .error e => (some (.wrapped ("failed to install package: " ++ e)),
          chk.2 ++ [["install", "--assume-yes", pkg]])

/-- `pacman.checkIfInstalled`: `pacman -Qs ^pkg$`; a failing probe is
reported as not installed with a nil error. -/
def pacmanCheckIfInstalled (w : World) (pkg : String) : (Bool × Option String) × Trace :=
  match runCommand w ["-Qs", "^" ++ pkg ++ "$"] with
  | .error _ => ((false, none), [["-Qs", "^" ++ pkg ++ "$"]])
  | .ok out => ((goTrimSpace out ≠ "", none), [["-Qs", "^" ++ pkg ++ "$"]])

/-- `pacman.InstallPackage`. -/
def pacmanInstallPackage (w : World) (pkg : String) : Option GoErr × Trace :=
  let chk := pacmanCheckIfInstalled w pkg
  match chk.1.2 with
  | some e => (some (.wrapped ("failed to check if package is installed: " ++ e)), chk.2)
  | none =>
    if chk.1.1 then (some (.packageAlreadyInstalled pkg), chk.2)
    else
      match runCommand w ["-S", "--noconfirm", pkg] with
      | .ok _ => (none, chk.2 ++ [["-S", "--noconfirm", pkg]])
      | .error e => (some (.wrapped ("failed to install package: " ++ e)),
          chk.2 ++ [["-S", "--noconfirm", pkg]])

/-- `snap.checkIfInstalled`: `snap list pkg`; a failing probe is reported as
not installed with a nil error, otherwise more than one output line (header
plus entries) means installed. -/
def snapCheckIfInstalled (w : World) (pkg : String) : (Bool × Option String) × Trace :=
  match runCommand w ["list", pkg] with
  | .error _ => ((false, none), [["list", pkg]])
  | .ok out => ((decide ((goSplit (goTrimSpace out) "\n").length > 1), none), [["list", pkg]])

/-- `snap.InstallPackage`: `install --classic`, retrying without `--classic`
once on failure. -/
def snapInstallPackage (w : World) (pkg : String) : Option GoErr × Trace :=
  let chk := snapCheckIfInstalled w pkg
  match chk.1.2 with
  | some e => (some (.wrapped ("failed to check if package is installed: " ++ e)), chk.2)
  | none =>
    if chk.1.1 then (some (.packageAlreadyInstalled pkg), chk.2)
    else
      match runCommand w ["install", "--classic", pkg] with
      | .ok _ => (none, chk.2 ++ [["install", "--classic", pkg]])
      | .error _ =>
        match runCommand w ["install", pkg] with
        | .ok _ => (none, chk.2 ++ [["install", "--classic", pkg], ["install", pkg]])
        | .error e => (some (.wrapped ("failed to install package: " ++ e)),
            chk.2 ++ [["install", "--classic", pkg], ["install", pkg]])

/-- `winget.checkIfInstalled`: `winget list --name pkg`; a failing probe is
reported as not installed with a nil error, otherwise scan the lines after
the two-line header for a case-insensitive substring match. -/
def wingetCheckIfInstalled (w : World) (pkg : String) : (Bool × Option String) × Trace :=
  match runCommand w ["list", "--name", pkg] with
  | .error _ => ((false, none), [["list", "--name", pkg]])
  | .ok out =>
    let lines := goSplit out "\n"
    ((if lines.length > 2
      then (lines.drop 2).any (fun line => goContains (goToLower line) (goToLower pkg))
      else false, none), [["list", "--name", pkg]])

/-- `winget.InstallPackage`. -/
def wingetInstallPackage (w : World) (pkg : String) : Option GoErr × Trace :=
  let chk := wingetCheckIfInstalled w pkg
  match chk.1.2 with
  | some e => (some (.wrapped ("failed to check if package is installed: " ++ e)), chk.2)
  | none =>
    if chk.1.1 then (some (.packageAlreadyInstalled pkg), chk.2)
    else
      match runCommand w
          ["install", "--silent", "--accept-package-agreements",
           "--accept-source-agreements", pkg] with
      | .ok _ => (none, chk.2 ++ [["install", "--silent", "--accept-package-agreements",
          "--accept-source-agreements", pkg]])
      | .error e => (some (.wrapped ("failed to install package: " ++ e)),
          chk.2 ++ [["install", "--silent", "--accept-package-agreements",
            "--accept-source-agreements", pkg]])

/-- A world in which APT's `dpkg -s` probe fails but the `dpkg -l` fallback
output lists the package with an `ii` marker. -/
def c10CexWorld : World := fun args =>
  if args = ["dpkg", "-s", "wget"] then .fail "exit status 1" ""
  else if args = ["dpkg", "-l", "wget"] then .ok "ii  wget  1.21.3  amd64  retrieves files"
  else .ok ""

/-- **C10, counterexample.** The claim says `checkIfInstalled` returns false
with a nil error whenever the probe command fails, so `InstallPackage`
proceeds to run the install command.  For the APT driver this is false: when
`dpkg -s` fails but the `dpkg -l` fallback lists the package as `ii`,
`checkIfInstalled` returns TRUE, and `InstallPackage` reports
`PackageAlreadyInstalledError` without running any install command. -/
theorem aptProbeFailure_counterexample :
    c10CexWorld ["dpkg", "-s", "wget"] = .fail "exit status 1" ""
    ∧ aptCheckIfInstalled c10CexWorld "wget"
        = ((true, none), [["dpkg", "-s", "wget"], ["dpkg", "-l", "wget"]])
    ∧ aptInstallPackage c10CexWorld "wget"
        = (some (.packageAlreadyInstalled "wget"),
           [["dpkg", "-s", "wget"], ["dpkg", "-l", "wget"]]) :=
  ⟨rfl, rfl, rfl⟩

/-- **C10, amended.** For Pacman, Snap and Winget a failing probe command
yields `(false, nil)` and `InstallPackage` proceeds to run the install
command.  For APT, a failing `dpkg -s` consults the `dpkg -l` fallback; when
that does not indicate installation, the result is `(false, nil)` and
`InstallPackage` proceeds.  In all four drivers `checkIfInstalled` never
returns a non-nil error. -/
theorem checkIfInstalled_probe_failure :
    ∀ (w : World) (pkg : String),
      (∀ e o, w ["-Qs", "^" ++ pkg ++ "$"] = .fail e o →
        pacmanCheckIfInstalled w pkg = ((false, none), [["-Qs", "^" ++ pkg ++ "$"]])
          ∧ (pacmanInstallPackage w pkg).2
              = [["-Qs", "^" ++ pkg ++ "$"], ["-S", "--noconfirm", pkg]])
      ∧ (∀ e o, w ["list", pkg] = .fail e o →
        snapCheckIfInstalled w pkg = ((false, none), [["list", pkg]])
          ∧ (snapInstallPackage w pkg).2.take 2
              = [["list", pkg], ["install", "--classic", pkg]])
      ∧ (∀ e o, w ["list", "--name", pkg] = .fail e o →
        wingetCheckIfInstalled w pkg = ((false, none), [["list", "--name", pkg]])
          ∧ (wingetInstallPackage w pkg).2
              = [["list", "--name", pkg],
                 ["install", "--silent", "--accept-package-agreements",
                  "--accept-source-agreements", pkg]])
      ∧ (∀ e o, w ["dpkg", "-s", pkg] = .fail e o →
        (goContains (aptFallbackOut w pkg) pkg && goContains (aptFallbackOut w pkg) "ii")
            = false →
        aptCheckIfInstalled w pkg
            = ((false, none), [["dpkg", "-s", pkg], ["dpkg", "-l", pkg]])
          ∧ (aptInstallPackage w pkg).2
              = [["dpkg", "-s", pkg], ["dpkg", "-l", pkg],
                 ["install", "--assume-yes", pkg]])
      ∧ (aptCheckIfInstalled w pkg).1.2 = none
      ∧ (pacmanCheckIfInstalled w pkg).1.2 = none
      ∧ (snapCheckIfInstalled w pkg).1.2 = none
      ∧ (wingetCheckIfInstalled w pkg).1.2 = none := by
  intro w pkg
  refine ⟨?_, ?_, ?_, ?_, ?_, ?_, ?_, ?_⟩
  · intro e o hw
    have hrc : runCommand w ["-Qs", "^" ++ pkg ++ "$"]
        = .error ("command failed: " ++ e ++ "\nOutput: " ++ o) := by
      unfold runCommand
      rw [hw]
    have hchk : pacmanCheckIfInstalled w pkg
        = ((false, none), [["-Qs", "^" ++ pkg ++ "$"]]) := by
      unfold pacmanCheckIfInstalled
      rw [hrc]
    refine ⟨hchk, ?_⟩
    unfold pacmanInstallPackage
    rw [hchk]
    cases runCommand w ["-S", "--noconfirm", pkg] <;> rfl
  · intro e o hw
    have hrc : runCommand w ["list", pkg]
        = .error ("command failed: " ++ e ++ "\nOutput: " ++ o) := by
      unfold runCommand
      rw [hw]
    have hchk : snapCheckIfInstalled w pkg = ((false, none), [["list", pkg]]) := by
      unfold snapCheckIfInstalled
      rw [hrc]
    refine ⟨hchk, ?_⟩
    unfold snapInstallPackage
    rw [hchk]
    cases runCommand w ["install", "--classic", pkg] with
    | ok _ => rfl
    | error _ => cases runCommand w ["install", pkg] <;> rfl
  · intro e o hw
    have hrc : runCommand w ["list", "--name", pkg]
        = .error ("command failed: " ++ e ++ "\nOutput: " ++ o) := by
      unfold runCommand
      rw [hw]
    have hchk : wingetCheckIfInstalled w pkg
        = ((false, none), [["list", "--name", pkg]]) := by
      unfold wingetCheckIfInstalled
      rw [hrc]
    refine ⟨hchk, ?_⟩
    unfold wingetInstallPackage
    rw [hchk]
    cases runCommand w
        ["install", "--silent", "--accept-package-agreements",
         "--accept-source-agreements", pkg] <;> rfl
  · intro e o hw hfb
    have hrc : runCommand w ["dpkg", "-s", pkg]
        = .error ("command failed: " ++ e ++ "\nOutput: " ++ o) := by
      unfold runCommand
      rw [hw]
    have hchk : aptCheckIfInstalled w pkg
        = ((false, none), [["dpkg", "-s", pkg], ["dpkg", "-l", pkg]]) := by
      unfold aptCheckIfInstalled
      rw [hrc]
      show ((goContains (aptFallbackOut w pkg) pkg && goContains (aptFallbackOut w pkg) "ii",
            none), [["dpkg", "-s", pkg], ["dpkg", "-l", pkg]])
          = ((false, none), [["dpkg", "-s", pkg], ["dpkg", "-l", pkg]])
      rw [hfb]
    refine ⟨hchk, ?_⟩
    unfold aptInstallPackage
    rw [hchk]
    cases runCommand w ["install", "--assume-yes", pkg] <;> rfl
  · unfold aptCheckIfInstalled
    cases runCommand w ["dpkg", "-s", pkg] <;> rfl
  · unfold pacmanCheckIfInstalled
    cases runCommand w ["-Qs", "^" ++ pkg ++ "$"] <;> rfl
  · unfold snapCheckIfInstalled
    cases runCommand w ["list", pkg] <;> rfl
  · unfold wingetCheckIfInstalled
    cases runCommand w ["list", "--name", pkg] <;> rfl

/-- A world in which every installed-state probe fails. -/
def c10FailWorld : World := fun args =>
  if args = ["-Qs", "^ripgrep$"] then .fail "exit status 1" ""
  else if args = ["list", "ripgrep"] then .fail "exit status 1" ""
  else if args = ["list", "--name", "ripgrep"] then .fail "exit status 1" ""
  else if args = ["dpkg", "-s", "ripgrep"] then .fail "exit status 1" ""
  else if args = ["dpkg", "-l", "ripgrep"] then .fail "exit status 1" ""
  else .ok ""

/-- Witness for `checkIfInstalled_probe_failure` at a world where all four
probes fail: each driver reports not-installed with a nil error and goes on
to run its install command. -/
theorem checkIfInstalled_probe_failure_witness :
    (pacmanCheckIfInstalled c10FailWorld "ripgrep"
        = ((false, none), [["-Qs", "^ripgrep$"]])
      ∧ (pacmanInstallPackage c10FailWorld "ripgrep").2
          = [["-Qs", "^ripgrep$"], ["-S", "--noconfirm", "ripgrep"]])
    ∧ (snapCheckIfInstalled c10FailWorld "ripgrep" = ((false, none), [["list", "ripgrep"]])
      ∧ (snapInstallPackage c10FailWorld "ripgrep").2.take 2
          = [["list", "ripgrep"], ["install", "--classic", "ripgrep"]])
    ∧ (aptCheckIfInstalled c10FailWorld "ripgrep"
        = ((false, none), [["dpkg", "-s", "ripgrep"], ["dpkg", "-l", "ripgrep"]])
      ∧ (aptInstallPackage c10FailWorld "ripgrep").2
          = [["dpkg", "-s", "ripgrep"], ["dpkg", "-l", "ripgrep"],
             ["install", "--assume-yes", "ripgrep"]]) :=
  ⟨(checkIfInstalled_probe_failure c10FailWorld "ripgrep").1 "exit status 1" "" rfl,
   (checkIfInstalled_probe_failure c10FailWorld "ripgrep").2.1 "exit status 1" "" rfl,
   (checkIfInstalled_probe_failure c10FailWorld "ripgrep").2.2.2.1 "exit status 1" "" rfl
     (by decide)⟩

/-! ## InstallVersion per driver (C3): chocolatey.go, the apt driver, base.go -/

/-- The line scan of `chocolatey.GetInstalledVersion`: first line (after the
header) whose lower-cased trimmed text starts with the package name and has
at least two fields yields the second field. -/
def chocoFindLine (pkg : String) : List String → Option String
  | [] => none
  | line :: rest =>
    let l := goTrimSpace line
    if goHasPrefix (goToLower l) (goToLower pkg) then
      match goFields l with
      | _ :: v :: _ => some v
      | _ => chocoFindLine pkg rest
    else chocoFindLine pkg rest

/-- An empty `types.PackageVersionInfo` carrying only the name. -/
def emptyInfo (pkg : String) : PackageVersionInfo :=
  { Name := pkg, Version := "", Latest := "", Satisfies := false, Constraint := "" }

/-- `chocolatey.GetInstalledVersion`: `choco list --local-only pkg`; the
known not-found failure text is a normal "not installed", other failures are
errors; otherwise parse `pkg version` lines after the header. -/
def chocoGetInstalledVersion (w : World) (pkg : String) :
    Except String PackageVersionInfo × Trace :=
  match runCommand w ["list", "--local-only", pkg] with
  | .error e =>
    if goContains e "The package was not found"
    then (.ok (emptyInfo pkg), [["list", "--local-only", pkg]])
    else (.error ("failed to get installed version: " ++ e), [["list", "--local-only", pkg]])
  | .ok out =>
    let lines := goSplit (goTrimSpace out) "\n"
    if lines.length < 2 then (.ok (emptyInfo pkg), [["list", "--local-only", pkg]])
    else
      match chocoFindLine pkg (lines.drop 1) with
      | some v => (.ok { emptyInfo pkg with Version := v }, [["list", "--local-only", pkg]])
      | none => (.ok (emptyInfo pkg), [["list", "--local-only", pkg]])

/-- `Satisfies` with the error ignored, as `chocolatey.InstallVersion` does
(`satisfies, _ := ver.Satisfies(...)`; the zero value on error is false). -/
def satisfiesOrFalse (v : Version) (c : String) : Bool :=
  match v.Satisfies c with
  | .ok s => s
  | .error _ => false

/-- `chocolatey.CheckVersion`: compose `GetInstalledVersion` with `Parse`
and `Satisfies`. -/
def chocoCheckVersion (w : World) (pkg c : String) :
    Except String PackageVersionInfo × Trace :=
  let gv := chocoGetInstalledVersion w pkg
  match gv.1 with
  | .error e => (.error ("failed to get installed version: " ++ e), gv.2)
  | .ok info =>
    if info.Version = "" then
      (.ok { info with Satisfies := false, Constraint := c }, gv.2)
    else
      match Parse info.Version with
      | none => (.ok { info with Satisfies := false, Constraint := c }, gv.2)
      | some iv =>
        match iv.Satisfies c with
        | .error e => (.error ("invalid version constraint: " ++ e), gv.2)
        | .ok s => (.ok { info with Satisfies := s, Constraint := c }, gv.2)

/-- The word-or-dot class `[\w.]` of the chocolatey version-token pattern. -/
def isWordDotChar (c : Char) : Bool :=
  (48 ≤ c.toNat && c.toNat ≤ 57) || (65 ≤ c.toNat && c.toNat ≤ 90) ||
  (97 ≤ c.toNat && c.toNat ≤ 122) || c.toNat = 95 || c.toNat = 46

/-- One greedy match of `\d+\.\d+(?:\.\d+)?(?:-[\w.]+)?` anchored at the
head of the input (the token and the remaining input). -/
def matchVersionAt (cs : List Char) : Option (List Char × List Char) :=
  let s1 := spanP isDigitChar cs
  if s1.1.isEmpty then none
  else
    match s1.2 with
    | '.' :: r2 =>
      let s2 := spanP isDigitChar r2
      if s2.1.isEmpty then none
      else
        let pr3 :=
          match s2.2 with
          | '.' :: r3a =>
            let s3 := spanP isDigitChar r3a
            if s3.1.isEmpty then (([] : List Char), s2.2) else ('.' :: s3.1, s3.2)
          | _ => ([], s2.2)
        let pr4 :=
          match pr3.2 with
          | '-' :: r4a =>
            let s4 := spanP isWordDotChar r4a
            if s4.1.isEmpty then (([] : List Char), pr3.2) else ('-' :: s4.1, s4.2)
          | _ => ([], pr3.2)
        some (s1.1 ++ ('.' :: s2.1) ++ pr3.1 ++ pr4.1, pr4.2)
    | _ => none

/-- The scan of `FindAllStringSubmatch`: leftmost non-overlapping matches of
the version-token pattern.  Fuel is a recursion-depth bound only; every step
consumes at least one character, so `length + 1` never runs out. -/
def chocoScanGo : Nat → List Char → List String
  | 0, _ => []
  | _ + 1, [] => []
  | fuel + 1, c :: cs =>
    match matchVersionAt (c :: cs) with
    | some r => String.mk r.1 :: chocoScanGo fuel r.2
    | none => chocoScanGo fuel cs

/-- Version-token extraction of `chocolatey.getAvailableVersions`. -/
def chocoExtractVersions (s : String) : List String :=
  chocoScanGo (s.data.length + 1) s.data

/-- `chocolatey.getAvailableVersions`: `choco find pkg --all-versions` plus
the token extraction. -/
def chocoGetAvailableVersions (w : World) (pkg : String) :
    Except String (List String) × Trace :=
  match runCommand w ["find", pkg, "--all-versions"] with
  | .error e => (.error ("failed to find package versions: " ++ e),
      [["find", pkg, "--all-versions"]])
  | .ok out => (.ok (chocoExtractVersions out), [["find", pkg, "--all-versions"]])

/-- The selection loop of `chocolatey.InstallVersion`: first enumerated
version that parses and satisfies the constraint. -/
def chocoSelectVersion (vs : List String) (c : String) : Option String :=
  match vs with
  | [] => none
  | v :: rest =>
    match Parse v with
    | none => chocoSelectVersion rest c
    | some ver => if satisfiesOrFalse ver c then some v else chocoSelectVersion rest c

/-- `chocolatey.InstallVersion`: check the installed version first (no-op if
it satisfies the constraint), then enumerate available versions, select the
first satisfying one, fail when none matches, and install with
`--version X`. -/
def chocoInstallVersion (w : World) (pkg c : String) : Except String Unit × Trace :=
  let cv := chocoCheckVersion w pkg c
  match cv.1 with
  | .error e => (.error ("failed to check package version: " ++ e), cv.2)
  | .ok info =>
    if info.Satisfies then (.ok (), cv.2)
    else
      let av := chocoGetAvailableVersions w pkg
      match av.1 with
      | .error e => (.error ("failed to get available versions: " ++ e), cv.2 ++ av.2)
      | .ok versions =>
        match chocoSelectVersion versions c with
        | none => (.error ("no version found matching constraint: " ++ c), cv.2 ++ av.2)
        | some sv =>
          match runCommand w ["install", pkg, "--version", sv, "-y"] with
          | .ok _ => (.ok (), cv.2 ++ av.2 ++ [["install", pkg, "--version", sv, "-y"]])
          | .error e => (.error ("failed to install package version " ++ sv ++ ": " ++ e),
              cv.2 ++ av.2 ++ [["install", pkg, "--version", sv, "-y"]])

/-- The architecture-suffix strip of the apt version driver: drop everything
from the last `_` on, provided it is not at position 0. -/
def stripArch (s : String) : String :=
  match s.data.reverse.findIdx? (fun c => c = '_') with
  | none => s
  | some k =>
    let idx := s.data.length - 1 - k
    if idx > 0 then String.mk (s.data.take idx) else s

/-- `apt.GetInstalledVersion` (the version-aware apt driver):
`dpkg-query -W -f=...`, then split version and status lines, require
`install ok installed`, trim and strip the architecture suffix. -/
def aptGetInstalledVersion (w : World) (pkg : String) :
    Except String PackageVersionInfo × Trace :=
  match runCommand w ["dpkg-query", "-W", "-f=$\x7bVersion\x7d\\n$\x7bStatus\x7d\\n", pkg] with
  | .error e => (.error ("failed to query package version: " ++ e),
      [["dpkg-query", "-W", "-f=$\x7bVersion\x7d\\n$\x7bStatus\x7d\\n", pkg]])
  | .ok out =>
    let cmdTrace := [["dpkg-query", "-W", "-f=$\x7bVersion\x7d\\n$\x7bStatus\x7d\\n", pkg]]
    match goSplitN2 out "\n" with
    | [l0, l1] =>
      if goContains l1 "install ok installed" then
        (.ok { emptyInfo pkg with Version := stripArch (goTrimSpace l0) }, cmdTrace)
      else (.ok (emptyInfo pkg), cmdTrace)
    | _ => (.ok (emptyInfo pkg), cmdTrace)

/-- `apt.CheckVersion` (the version-aware apt driver). -/
def aptCheckVersion (w : World) (pkg c : String) :
    Except String PackageVersionInfo × Trace :=
  let gv := aptGetInstalledVersion w pkg
  match gv.1 with
  | .error e => (.error ("failed to get installed version: " ++ e), gv.2)
  | .ok info =>
    if info.Version = "" then
      (.ok { info with Satisfies := false, Constraint := c }, gv.2)
    else
      match Parse info.Version with
      | none => (.ok { info with Satisfies := false, Constraint := c }, gv.2)
      | some iv =>
        match iv.Satisfies c with
        | .error e => (.error ("invalid version constraint: " ++ e), gv.2)
        | .ok s => (.ok { info with Satisfies := s, Constraint := c }, gv.2)

/-- `apt.InstallVersion` (the version-aware apt driver): idempotency check,
then a direct `apt install pkg=version` — no enumeration of available
versions. -/
def aptInstallVersion (w : World) (pkg c : String) : Except String Unit × Trace :=
  let cv := aptCheckVersion w pkg c
  match cv.1 with
  | .error e => (.error ("failed to check package version: " ++ e), cv.2)
  | .ok info =>
    if info.Satisfies then (.ok (), cv.2)
    else
      match runCommand w ["install", "--assume-yes", "--allow-downgrades", pkg ++ "=" ++ c] with
      | .ok _ => (.ok (), cv.2 ++ [["install", "--assume-yes", "--allow-downgrades",
          pkg ++ "=" ++ c]])
      | .error e => (.error ("failed to install package version " ++ c ++ ": " ++ e),
          cv.2 ++ [["install", "--assume-yes", "--allow-downgrades", pkg ++ "=" ++ c]])

/-- A computation that may dereference a nil function pointer. -/
inductive PanicOr (α : Type) where
  | panic
  | val (a : α)

/-- `basePackageManager.InstallVersion` (base.go): with an install function
configured it delegates to it with the plain package name — the version
constraint is ignored and nothing is checked; without one, the fallback
branch calls the nil `installPackageFunc`, a run-time nil-pointer panic. -/
def baseInstallVersion (installPackageFunc : Option (String → Option GoErr × Trace))
    (pkg : String) (_c : String) : PanicOr (Option GoErr × Trace) :=
  match installPackageFunc with
  | some f => .val (f pkg)
  | none => .panic

/-- The winget driver (winget.go) — like dnf.go, yum.go and the pacman,
scoop and snap drivers — never sets `installPackageFunc` and does not
override `InstallVersion`, so the method promoted from the embedded
`basePackageManager` is the base implementation with a nil function
pointer. -/
def wingetInstallVersion (_w : World) (pkg : String) (c : String) :
    PanicOr (Option GoErr × Trace) :=
  baseInstallVersion none pkg c

/-- A world whose commands all succeed with empty output. -/
def trivialWorld : World := fun _ => .ok ""

/-- `homebrew.GetInstalledVersion` (homebrew.go lines 198-224):
`brew list --versions pkg`; the two known not-installed failure texts are a
normal "not installed", other failures are errors; otherwise the output has
the form `pkg v1 v2 ...` and the second field is the installed version. -/
def homebrewGetInstalledVersion (w : World) (pkg : String) :
    Except String PackageVersionInfo × Trace :=
  match runCommand w ["list", "--versions", pkg] with
  | .error e =>
    if goContains e "No available formula or cask" || goContains e "No such keg"
    then (.ok (emptyInfo pkg), [["list", "--versions", pkg]])
    else (.error ("failed to get installed version: " ++ e), [["list", "--versions", pkg]])
  | .ok out =>
    match goFields out with
    | _ :: v :: _ => (.ok { emptyInfo pkg with Version := v }, [["list", "--versions", pkg]])
    | _ => (.ok (emptyInfo pkg), [["list", "--versions", pkg]])

/-- `homebrew.CheckVersion` (homebrew.go lines 227-258): compose
`GetInstalledVersion` with `Parse` and `Satisfies`. -/
def homebrewCheckVersion (w : World) (pkg c : String) :
    Except String PackageVersionInfo × Trace :=
  let gv := homebrewGetInstalledVersion w pkg
  match gv.1 with
  | .error e => (.error ("failed to get installed version: " ++ e), gv.2)
  | .ok info =>
    if info.Version = "" then
      (.ok { info with Satisfies := false, Constraint := c }, gv.2)
    else
      match Parse info.Version with
      | none => (.ok { info with Satisfies := false, Constraint := c }, gv.2)
      | some iv =>
        match iv.Satisfies c with
        | .error e => (.error ("invalid version constraint: " ++ e), gv.2)
        | .ok s => (.ok { info with Satisfies := s, Constraint := c }, gv.2)

/-- The literal part of the homebrew version pattern: the characters of the
key, colon and opening quote. -/
def hbVerKey : List Char := "\"version\":\"".data

/-- One match of the homebrew version pattern anchored at the head of the
input: the literal key, a non-empty run of non-quote characters (the capture
group) and the closing quote; yields the capture and the input after the
full match. -/
def hbMatchAt (cs : List Char) : Option (String × List Char) :=
  if isPrefixList hbVerKey cs then
    let sp := spanP (fun c => c.toNat != 34) (cs.drop hbVerKey.length)
    if sp.1.isEmpty then none
    else
      match sp.2 with
      | '"' :: r2 => some (String.mk sp.1, r2)
      | _ => none
  else none

/-- The scan of `FindAllStringSubmatch` for the homebrew version pattern:
leftmost non-overlapping matches with the capture group collected.  Fuel is
a recursion-depth bound only; every step consumes at least one character, so
`length + 1` never runs out. -/
def hbScanGo : Nat → List Char → List String
  | 0, _ => []
  | _ + 1, [] => []
  | fuel + 1, c :: cs =>
    match hbMatchAt (c :: cs) with
    | some r => r.1 :: hbScanGo fuel r.2
    | none => hbScanGo fuel cs

/-- Version extraction of `homebrew.getAvailableVersions` over the brew
info JSON. -/
def hbExtractVersions (s : String) : List String :=
  hbScanGo (s.data.length + 1) s.data

/-- `homebrew.getAvailableVersions` (homebrew.go lines 176-195):
`brew info --json=v1 --installed pkg` plus the version extraction. -/
def homebrewGetAvailableVersions (w : World) (pkg : String) :
    Except String (List String) × Trace :=
  match runCommand w ["info", "--json=v1", "--installed", pkg] with
  | .error e => (.error ("failed to get package info: " ++ e),
      [["info", "--json=v1", "--installed", pkg]])
  | .ok out => (.ok (hbExtractVersions out), [["info", "--json=v1", "--installed", pkg]])

/-- `homebrew.InstallVersion` (homebrew.go lines 89-130): check the
installed version first (no-op when it satisfies the constraint), then
enumerate available versions, select the first that parses and satisfies the
constraint (the selection loop is character-for-character the one in
`chocolatey.InstallVersion`, hence `chocoSelectVersion`), fail when none
matches, and install `pkg@version`. -/
def homebrewInstallVersion (w : World) (pkg c : String) : Except String Unit × Trace :=
  let cv := homebrewCheckVersion w pkg c
  match cv.1 with
  | .error e => (.error ("failed to check package version: " ++ e), cv.2)
  | .ok info =>
    if info.Satisfies then (.ok (), cv.2)
    else
      let av := homebrewGetAvailableVersions w pkg
      match av.1 with
      | .error e => (.error ("failed to get available versions: " ++ e), cv.2 ++ av.2)
      | .ok versions =>
        match chocoSelectVersion versions c with
        | none => (.error ("no version found matching constraint: " ++ c), cv.2 ++ av.2)
        | some sv =>
          match runCommand w ["install", pkg ++ "@" ++ sv] with
          | .ok _ => (.ok (), cv.2 ++ av.2 ++ [["install", pkg ++ "@" ++ sv]])
          | .error e => (.error ("failed to install package version " ++ sv ++ ": " ++ e),
              cv.2 ++ av.2 ++ [["install", pkg ++ "@" ++ sv]])

/-- **C3, counterexample.** The claim quantifies over every driver, but the
Winget driver neither overrides `InstallVersion` nor configures
`installPackageFunc`: `InstallVersion("wget", "1.0.0")` reaches the base
fallback branch, which calls the nil function pointer — a run-time panic,
with no idempotency check and no enumeration. -/
theorem wingetInstallVersion_counterexample :
    wingetInstallVersion trivialWorld "wget" "1.0.0" = .panic := rfl

theorem chocoGetInstalledVersion_trace (w : World) (pkg : String) :
    (chocoGetInstalledVersion w pkg).2 = [["list", "--local-only", pkg]] := by
  unfold chocoGetInstalledVersion
  cases runCommand w ["list", "--local-only", pkg] with
  | error e =>
    by_cases hc : goContains e "The package was not found" = true
    · simp [hc]
    · simp [hc]
  | ok out =>
    by_cases hl : (goSplit (goTrimSpace out) "\n").length < 2
    · simp [hl]
    · simp only [if_neg hl]
      cases chocoFindLine pkg ((goSplit (goTrimSpace out) "\n").drop 1) <;> simp

theorem chocoCheckVersion_trace (w : World) (pkg c : String) :
    (chocoCheckVersion w pkg c).2 = [["list", "--local-only", pkg]] := by
  have htr := chocoGetInstalledVersion_trace w pkg
  unfold chocoCheckVersion
  cases h : (chocoGetInstalledVersion w pkg).1 with
  | error e => simp [h, htr]
  | ok info =>
    by_cases hv : info.Version = ""
    · simp [h, hv, htr]
    · cases hp : Parse info.Version with
      | none => simp [h, hv, hp, htr]
      | some iv =>
        cases hs : iv.Satisfies c with
        | error e => simp [h, hv, hp, hs, htr]
        | ok s => simp [h, hv, hp, hs, htr]

theorem aptGetInstalledVersion_trace (w : World) (pkg : String) :
    (aptGetInstalledVersion w pkg).2
      = [["dpkg-query", "-W", "-f=$\x7bVersion\x7d\\n$\x7bStatus\x7d\\n", pkg]] := by
  unfold aptGetInstalledVersion
  cases runCommand w ["dpkg-query", "-W", "-f=$\x7bVersion\x7d\\n$\x7bStatus\x7d\\n", pkg] with
  | error e => rfl
  | ok out =>
    cases hsp : goSplitN2 out "\n" with
    | nil => simp [hsp]
    | cons l0 rest =>
      cases rest with
      | nil => simp [hsp]
      | cons l1 rest2 =>
        cases rest2 with
        | nil =>
          by_cases hc : goContains l1 "install ok installed" = true
          · simp [hsp, hc]
          · simp [hsp, hc]
        | cons l2 rest3 => simp [hsp]

theorem aptCheckVersion_trace (w : World) (pkg c : String) :
    (aptCheckVersion w pkg c).2
      = [["dpkg-query", "-W", "-f=$\x7bVersion\x7d\\n$\x7bStatus\x7d\\n", pkg]] := by
  have htr := aptGetInstalledVersion_trace w pkg
  unfold aptCheckVersion
  cases h : (aptGetInstalledVersion w pkg).1 with
  | error e => simp [h, htr]
  | ok info =>
    by_cases hv : info.Version = ""
    · simp [h, hv, htr]
    · cases hp : Parse info.Version with
      | none => simp [h, hv, hp, htr]
      | some iv =>
        cases hs : iv.Satisfies c with
        | error e => simp [h, hv, hp, hs, htr]
        | ok s => simp [h, hv, hp, hs, htr]

theorem homebrewGetInstalledVersion_trace (w : World) (pkg : String) :
    (homebrewGetInstalledVersion w pkg).2 = [["list", "--versions", pkg]] := by
  unfold homebrewGetInstalledVersion
  cases runCommand w ["list", "--versions", pkg] with
  | error e =>
    by_cases hc : (goContains e "No available formula or cask"
        || goContains e "No such keg") = true
    · simp [hc]
    · simp [hc]
  | ok out =>
    cases hf : goFields out with
    | nil => simp [hf]
    | cons a rest =>
      cases rest with
      | nil => simp [hf]
      | cons v rest2 => simp [hf]

theorem homebrewCheckVersion_trace (w : World) (pkg c : String) :
    (homebrewCheckVersion w pkg c).2 = [["list", "--versions", pkg]] := by
  have htr := homebrewGetInstalledVersion_trace w pkg
  unfold homebrewCheckVersion
  cases h : (homebrewGetInstalledVersion w pkg).1 with
  | error e => simp [h, htr]
  | ok info =>
    by_cases hv : info.Version = ""
    · simp [h, hv, htr]
    · cases hp : Parse info.Version with
      | none => simp [h, hv, hp, htr]
      | some iv =>
        cases hs : iv.Satisfies c with
        | error e => simp [h, hv, hp, hs, htr]
        | ok s => simp [h, hv, hp, hs, htr]

/-- **C3, amended.** The Chocolatey and Homebrew drivers implement the
claimed behaviour in full: when `CheckVersion` reports the constraint
already satisfied, `InstallVersion` returns success having run only the
probe command (no install); otherwise it enumerates the available versions,
selects the FIRST one that parses and satisfies the constraint, fails when
none matches, and installs the selected version (`--version X` for
chocolatey, `pkg@X` for homebrew).  The version-aware APT driver performs
the idempotency check but never enumerates: it directly runs
`install pkg=constraint`.  The remaining drivers (DNF, YUM, Pacman, Snap,
Scoop, Winget) inherit the base implementation with no install function
configured, and their `InstallVersion` performs no check at all — it panics
on a nil function pointer (winget shown). -/
theorem installVersion_per_driver :
    (∀ (w : World) (pkg c : String) (info : PackageVersionInfo) (tr : Trace),
        chocoCheckVersion w pkg c = (.ok info, tr) → info.Satisfies = true →
        chocoInstallVersion w pkg c = (.ok (), tr))
    ∧ (∀ (w : World) (pkg c : String),
        (chocoCheckVersion w pkg c).2 = [["list", "--local-only", pkg]])
    ∧ (∀ (w : World) (pkg c : String) (info : PackageVersionInfo) (tr : Trace)
          (vs : List String),
        chocoCheckVersion w pkg c = (.ok info, tr) → info.Satisfies = false →
        chocoGetAvailableVersions w pkg = (.ok vs, [["find", pkg, "--all-versions"]]) →
        (chocoSelectVersion vs c = none →
            chocoInstallVersion w pkg c
              = (.error ("no version found matching constraint: " ++ c),
                 tr ++ [["find", pkg, "--all-versions"]]))
          ∧ (∀ sv, chocoSelectVersion vs c = some sv →
              ∃ r, chocoInstallVersion w pkg c
                = (r, tr ++ [["find", pkg, "--all-versions"],
                     ["install", pkg, "--version", sv, "-y"]])))
    ∧ (∀ (vs : List String) (c : String),
        chocoSelectVersion vs c
          = vs.find? (fun v => (Parse v).elim false (fun ver => satisfiesOrFalse ver c)))
    ∧ (∀ (w : World) (pkg c : String) (info : PackageVersionInfo) (tr : Trace),
        aptCheckVersion w pkg c = (.ok info, tr) → info.Satisfies = true →
        aptInstallVersion w pkg c = (.ok (), tr))
    ∧ (∀ (w : World) (pkg c : String) (info : PackageVersionInfo) (tr : Trace),
        aptCheckVersion w pkg c = (.ok info, tr) → info.Satisfies = false →
        ∃ r, aptInstallVersion w pkg c
          = (r, tr ++ [["install", "--assume-yes", "--allow-downgrades", pkg ++ "=" ++ c]]))
    ∧ (∀ (w : World) (pkg c : String) (info : PackageVersionInfo) (tr : Trace),
        homebrewCheckVersion w pkg c = (.ok info, tr) → info.Satisfies = true →
        homebrewInstallVersion w pkg c = (.ok (), tr))
    ∧ (∀ (w : World) (pkg c : String),
        (homebrewCheckVersion w pkg c).2 = [["list", "--versions", pkg]])
    ∧ (∀ (w : World) (pkg c : String) (info : PackageVersionInfo) (tr : Trace)
          (vs : List String),
        homebrewCheckVersion w pkg c = (.ok info, tr) → info.Satisfies = false →
        homebrewGetAvailableVersions w pkg
          = (.ok vs, [["info", "--json=v1", "--installed", pkg]]) →
        (chocoSelectVersion vs c = none →
            homebrewInstallVersion w pkg c
              = (.error ("no version found matching constraint: " ++ c),
                 tr ++ [["info", "--json=v1", "--installed", pkg]]))
          ∧ (∀ sv, chocoSelectVersion vs c = some sv →
              ∃ r, homebrewInstallVersion w pkg c
                = (r, tr ++ [["info", "--json=v1", "--installed", pkg],
                     ["install", pkg ++ "@" ++ sv]])))
    ∧ (∀ (w : World) (pkg c : String), wingetInstallVersion w pkg c = .panic) := by
  refine ⟨?_, chocoCheckVersion_trace, ?_, ?_, ?_, ?_, ?_, homebrewCheckVersion_trace,
    ?_, fun _ _ _ => rfl⟩
  · intro w pkg c info tr h hsat
    simp [chocoInstallVersion, h, hsat]
  · intro w pkg c info tr vs h hsat hav
    constructor
    · intro hsel
      simp [chocoInstallVersion, h, hsat, hav, hsel]
    · intro sv hsel
      cases hrc : runCommand w ["install", pkg, "--version", sv, "-y"] with
      | ok out =>
        exact ⟨.ok (), by simp [chocoInstallVersion, h, hsat, hav, hsel, hrc]⟩
      | error e =>
        exact ⟨.error ("failed to install package version " ++ sv ++ ": " ++ e),
          by simp [chocoInstallVersion, h, hsat, hav, hsel, hrc]⟩
  · intro vs c
    induction vs with
    | nil => rfl
    | cons v rest ih =>
      cases hp : Parse v with
      | none => simp [chocoSelectVersion, hp, List.find?, ih]
      | some ver =>
        by_cases hs : satisfiesOrFalse ver c = true
        · simp [chocoSelectVersion, hp, hs, List.find?]
        · simp only [Bool.not_eq_true] at hs
          simp [chocoSelectVersion, hp, hs, List.find?, ih]
  · intro w pkg c info tr h hsat
    simp [aptInstallVersion, h, hsat]
  · intro w pkg c info tr h hsat
    cases hrc : runCommand w
        ["install", "--assume-yes", "--allow-downgrades", pkg ++ "=" ++ c] with
    | ok out =>
      exact ⟨.ok (), by simp [aptInstallVersion, h, hsat, hrc]⟩
    | error e =>
      exact ⟨.error ("failed to install package version " ++ c ++ ": " ++ e),
        by simp [aptInstallVersion, h, hsat, hrc]⟩
  · intro w pkg c info tr h hsat
    simp [homebrewInstallVersion, h, hsat]
  · intro w pkg c info tr vs h hsat hav
    constructor
    · intro hsel
      simp [homebrewInstallVersion, h, hsat, hav, hsel]
    · intro sv hsel
      cases hrc : runCommand w ["install", pkg ++ "@" ++ sv] with
      | ok out =>
        exact ⟨.ok (), by simp [homebrewInstallVersion, h, hsat, hav, hsel, hrc]⟩
      | error e =>
        exact ⟨.error ("failed to install package version " ++ sv ++ ": " ++ e),
          by simp [homebrewInstallVersion, h, hsat, hav, hsel, hrc]⟩

/-- World for the already-satisfied chocolatey scenario: `wget 1.2.3` is
installed locally. -/
def c3SatWorld : World := fun args =>
  if args = ["list", "--local-only", "wget"]
  then .ok "Chocolatey v2.0.0\nwget 1.2.3\n1 packages installed."
  else .ok ""

/-- World for the enumeration scenario: nothing installed locally, versions
`2.0.0` and `1.5.0` available remotely. -/
def c3EnumWorld : World := fun args =>
  if args = ["list", "--local-only", "wget"]
  then .ok "Chocolatey v2.0.0\n0 packages installed."
  else if args = ["find", "wget", "--all-versions"]
  then .ok "wget 2.0.0\nwget 1.5.0"
  else .ok ""

/-- World for the apt scenario: `ripgrep 13.0.0` is installed. -/
def c3AptWorld : World := fun args =>
  if args = ["dpkg-query", "-W", "-f=$\x7bVersion\x7d\\n$\x7bStatus\x7d\\n", "ripgrep"]
  then .ok "13.0.0\ninstall ok installed\n"
  else .ok ""

/-- World for the already-satisfied homebrew scenario: `wget 1.2.3` is
installed. -/
def hbSatWorld : World := fun args =>
  if args = ["list", "--versions", "wget"]
  then .ok "wget 1.2.3"
  else .ok ""

/-- World for the homebrew enumeration scenario: `wget` is not installed
(the list probe fails with the known keg text) and the info JSON carries
versions `2.0.0` and `1.5.0`. -/
def hbEnumWorld : World := fun args =>
  if args = ["list", "--versions", "wget"]
  then .fail "exit status 1" "Error: No such keg: wget"
  else if args = ["info", "--json=v1", "--installed", "wget"]
  then .ok "\"version\":\"2.0.0\",\"version\":\"1.5.0\""
  else .ok ""

/-- Witness for `installVersion_per_driver`: each hypothesis is discharged
at a concrete world — chocolatey no-ops when `1.2.3` is already installed,
fails when no available version matches `3.0.0`, selects and installs
`2.0.0` when it matches; apt no-ops on a satisfied constraint and installs
`ripgrep=14.0.0` directly otherwise; homebrew no-ops when satisfied, fails
when nothing matches and installs `wget@2.0.0` when it does; and winget's
inherited `InstallVersion` panics. -/
theorem installVersion_per_driver_witness :
    chocoInstallVersion c3SatWorld "wget" "1.2.3" = (.ok (), [["list", "--local-only", "wget"]])
    ∧ chocoInstallVersion c3EnumWorld "wget" "3.0.0"
        = (.error "no version found matching constraint: 3.0.0",
           [["list", "--local-only", "wget"], ["find", "wget", "--all-versions"]])
    ∧ (∃ r, chocoInstallVersion c3EnumWorld "wget" "2.0.0"
        = (r, [["list", "--local-only", "wget"], ["find", "wget", "--all-versions"],
               ["install", "wget", "--version", "2.0.0", "-y"]]))
    ∧ aptInstallVersion c3AptWorld "ripgrep" "13.0.0"
        = (.ok (), [["dpkg-query", "-W", "-f=$\x7bVersion\x7d\\n$\x7bStatus\x7d\\n", "ripgrep"]])
    ∧ (∃ r, aptInstallVersion c3AptWorld "ripgrep" "14.0.0"
        = (r, [["dpkg-query", "-W", "-f=$\x7bVersion\x7d\\n$\x7bStatus\x7d\\n", "ripgrep"],
               ["install", "--assume-yes", "--allow-downgrades", "ripgrep=14.0.0"]]))
    ∧ homebrewInstallVersion hbSatWorld "wget" "1.2.3"
        = (.ok (), [["list", "--versions", "wget"]])
    ∧ homebrewInstallVersion hbEnumWorld "wget" "3.0.0"
        = (.error "no version found matching constraint: 3.0.0",
           [["list", "--versions", "wget"], ["info", "--json=v1", "--installed", "wget"]])
    ∧ (∃ r, homebrewInstallVersion hbEnumWorld "wget" "2.0.0"
        = (r, [["list", "--versions", "wget"], ["info", "--json=v1", "--installed", "wget"],
               ["install", "wget@2.0.0"]]))
    ∧ wingetInstallVersion trivialWorld "git" "2.0.0" = .panic :=
  ⟨installVersion_per_driver.1 c3SatWorld "wget" "1.2.3"
      { Name := "wget", Version := "1.2.3", Latest := "", Satisfies := true,
        Constraint := "1.2.3" }
      [["list", "--local-only", "wget"]] rfl rfl,
   (installVersion_per_driver.2.2.1 c3EnumWorld "wget" "3.0.0"
      { Name := "wget", Version := "", Latest := "", Satisfies := false,
        Constraint := "3.0.0" }
      [["list", "--local-only", "wget"]] ["2.0.0", "1.5.0"] rfl rfl rfl).1 rfl,
   (installVersion_per_driver.2.2.1 c3EnumWorld "wget" "2.0.0"
      { Name := "wget", Version := "", Latest := "", Satisfies := false,
        Constraint := "2.0.0" }
      [["list", "--local-only", "wget"]] ["2.0.0", "1.5.0"] rfl rfl rfl).2 "2.0.0" rfl,
   installVersion_per_driver.2.2.2.2.1 c3AptWorld "ripgrep" "13.0.0"
      { Name := "ripgrep", Version := "13.0.0", Latest := "", Satisfies := true,
        Constraint := "13.0.0" }
      [["dpkg-query", "-W", "-f=$\x7bVersion\x7d\\n$\x7bStatus\x7d\\n", "ripgrep"]] rfl rfl,
   installVersion_per_driver.2.2.2.2.2.1 c3AptWorld "ripgrep" "14.0.0"
      { Name := "ripgrep", Version := "13.0.0", Latest := "", Satisfies := false,
        Constraint := "14.0.0" }
      [["dpkg-query", "-W", "-f=$\x7bVersion\x7d\\n$\x7bStatus\x7d\\n", "ripgrep"]] rfl rfl,
   installVersion_per_driver.2.2.2.2.2.2.1 hbSatWorld "wget" "1.2.3"
      { Name := "wget", Version := "1.2.3", Latest := "", Satisfies := true,
        Constraint := "1.2.3" }
      [["list", "--versions", "wget"]] rfl rfl,
   (installVersion_per_driver.2.2.2.2.2.2.2.2.1 hbEnumWorld "wget" "3.0.0"
      { Name := "wget", Version := "", Latest := "", Satisfies := false,
        Constraint := "3.0.0" }
      [["list", "--versions", "wget"]] ["2.0.0", "1.5.0"] rfl rfl rfl).1 rfl,
   (installVersion_per_driver.2.2.2.2.2.2.2.2.1 hbEnumWorld "wget" "2.0.0"
      { Name := "wget", Version := "", Latest := "", Satisfies := false,
        Constraint := "2.0.0" }
      [["list", "--versions", "wget"]] ["2.0.0", "1.5.0"] rfl rfl rfl).2 "2.0.0" rfl,
   installVersion_per_driver.2.2.2.2.2.2.2.2.2 trivialWorld "git" "2.0.0"⟩

/-! ## The installation tracker (src/pkg/installer/tracker.go)

`InstallationTracker` guards its state with a single non-reentrant
`sync.Mutex`.  The embedding makes the mutex explicit: `locked` is true
while a goroutine holds `t.mu`, and acquiring an already-held mutex is the
outcome `deadlock` — in Go the calling goroutine blocks forever on
`t.mu.Lock()`.  `time.Now()` and `generateID()` are passed in as
parameters; file I/O inside `save` is taken to succeed. -/

/-- Association-list update standing for the Go map assignment m[k] = v. -/
def mapSet {K B : Type} [DecidableEq K] (k : K) (v : B) :
    List (K × B) → List (K × B)
  | [] => [(k, v)]
  | (k0, v0) :: rest => if k0 = k then (k, v) :: rest else (k0, v0) :: mapSet k v rest

/-- Association-list lookup standing for the Go map read m[k]. -/
def mapGet {K B : Type} [DecidableEq K] (k : K) : List (K × B) → Option B
  | [] => none
  | (k0, v0) :: rest => if k0 = k then some v0 else mapGet k rest

/-- Association-list removal standing for Go delete(m, k). -/
def mapDel {K B : Type} [DecidableEq K] (k : K) : List (K × B) → List (K × B)
  | [] => []
  | (k0, v0) :: rest => if k0 = k then rest else (k0, v0) :: mapDel k rest

/-- `installer.PackageInfo` (tracker.go lines 33-37). -/
structure TPackageInfo where
  Name : String
  Version : String
  ManagerType : String
deriving DecidableEq, Repr

/-- `InstallationRecord` (tracker.go lines 23-30), with `time.Time` as a Nat
tick and the `Packages`/`Metadata` maps as association lists.  The
`Environment` field is omitted: no claim mentions it. -/
structure InstallationRecord where
  ID : String
  Timestamp : Nat
  Packages : List (String × TPackageInfo)
  Metadata : List (String × String)
  Status : String
deriving DecidableEq, Repr

/-- The tracker: the record map, the mutex (`locked`), and the journal file
contents (`none` until the first successful `save`). -/
structure InstallationTracker where
  installations : List (String × InstallationRecord)
  locked : Bool
  journal : Option (List (String × InstallationRecord))
deriving DecidableEq, Repr

/-- Outcome of a tracker method: a value with the post-state, an error
message with the post-state, or a deadlock (a `t.mu.Lock()` on the mutex the
same goroutine already holds never returns). -/
inductive TrackerOutcome (A : Type) where
  | ok (a : A) (s : InstallationTracker)
  | err (msg : String) (s : InstallationTracker)
  | deadlock
deriving DecidableEq, Repr

/-- `InstallationTracker.save` (tracker.go lines 231-254).  The first thing
it does is `t.mu.Lock()`; Go mutexes are not reentrant, so when the mutex is
already held this acquisition blocks forever.  When the mutex is free the
body serialises `t.installations` to the tracker file (the `journal` field)
and the deferred unlock releases the mutex. -/
def trackerSave (t : InstallationTracker) : TrackerOutcome Unit :=
  if t.locked then .deadlock
  else .ok () { t with journal := some t.installations, locked := false }

/-- `StartInstallation` (tracker.go lines 73-95): lock `t.mu`, build the
fresh record with `generateID()`/`time.Now()` (here `id`/`now`), store it,
call `save` (which re-locks the held mutex), deleting the record again if
`save` errs.  The deferred unlock runs on every return path. -/
def StartInstallation (t : InstallationTracker) (id : String) (now : Nat) :
    TrackerOutcome InstallationRecord :=
  if t.locked then .deadlock
  else
    let t1 : InstallationTracker := { t with locked := true }
    let record : InstallationRecord :=
      { ID := id, Timestamp := now, Packages := [], Metadata := [],
        Status := "in_progress" }
    let t2 : InstallationTracker :=
      { t1 with installations := mapSet id record t1.installations }
    match trackerSave t2 with
    | .deadlock => .deadlock
    | .err e t3 =>
        .err ("failed to save installation record: " ++ e)
          { t3 with installations := mapDel id t3.installations, locked := false }
    | .ok _ t3 => .ok record { t3 with locked := false }

/-- `AddPackage` (tracker.go lines 98-115): under the lock, find the record,
store the converted package info (the `ManagerType` is left empty by the
source), then `save`. -/
def AddPackage (t : InstallationTracker) (installationID : String)
    (pkgName pkgVersion : String) : TrackerOutcome Unit :=
  if t.locked then .deadlock
  else
    let t1 : InstallationTracker := { t with locked := true }
    match mapGet installationID t1.installations with
    | none =>
        .err ("installation record not found: " ++ installationID)
          { t1 with locked := false }
    | some record =>
        let newPkgs :=
          mapSet pkgName
            { Name := pkgName, Version := pkgVersion, ManagerType := "" }
            record.Packages
        let record1 : InstallationRecord := { record with Packages := newPkgs }
        let t2 : InstallationTracker :=
          { t1 with installations := mapSet installationID record1 t1.installations }
        match trackerSave t2 with
        | .deadlock => .deadlock
        | .err e t3 => .err e { t3 with locked := false }
        | .ok _ t3 => .ok () { t3 with locked := false }

/-- `CompleteInstallation` (tracker.go lines 118-131): under the lock, set
the record status to completed, refresh the timestamp, then `save`. -/
def CompleteInstallation (t : InstallationTracker) (installationID : String)
    (now : Nat) : TrackerOutcome Unit :=
  if t.locked then .deadlock
  else
    let t1 : InstallationTracker := { t with locked := true }
    match mapGet installationID t1.installations with
    | none =>
        .err ("installation record not found: " ++ installationID)
          { t1 with locked := false }
    | some record =>
        let record1 : InstallationRecord :=
          { record with Status := "completed", Timestamp := now }
        let t2 : InstallationTracker :=
          { t1 with installations := mapSet installationID record1 t1.installations }
        match trackerSave t2 with
        | .deadlock => .deadlock
        | .err e t3 => .err e { t3 with locked := false }
        | .ok _ t3 => .ok () { t3 with locked := false }

/-- `FailInstallation` (tracker.go lines 134-148): under the lock, set the
status to failed, record the reason under the metadata key failure_reason,
refresh the timestamp, then `save`. -/
def FailInstallation (t : InstallationTracker) (installationID : String)
    (reason : String) (now : Nat) : TrackerOutcome Unit :=
  if t.locked then .deadlock
  else
    let t1 : InstallationTracker := { t with locked := true }
    match mapGet installationID t1.installations with
    | none =>
        .err ("installation record not found: " ++ installationID)
          { t1 with locked := false }
    | some record =>
        let record1 : InstallationRecord :=
          { record with
            Status := "failed",
            Metadata := mapSet "failure_reason" reason record.Metadata,
            Timestamp := now }
        let t2 : InstallationTracker :=
          { t1 with installations := mapSet installationID record1 t1.installations }
        match trackerSave t2 with
        | .deadlock => .deadlock
        | .err e t3 => .err e { t3 with locked := false }
        | .ok _ t3 => .ok () { t3 with locked := false }

/-- The uninstall loop of `Rollback` (tracker.go lines 168-178): call
`manager.UninstallPackage` on every tracked package, accumulating failures
into one combined error message with the source format strings; the second
component lists the packages the driver was asked to uninstall, in order.
Go map iteration order is unspecified; the association-list order stands in
for one admissible order. -/
def rollbackLoop (driver : String → Option GoErr)
    (pkgs : List (String × TPackageInfo)) : Option String × List String :=
  pkgs.foldl
    (fun st p =>
      match driver p.2.Name with
      | none => (st.1, st.2 ++ [p.2.Name])
      | some e =>
          match st.1 with
          | none =>
              (some ("failed to uninstall package " ++ p.2.Name ++ ": "
                ++ e.message), st.2 ++ [p.2.Name])
          | some prev =>
              (some (prev ++ "; failed to uninstall package " ++ p.2.Name
                ++ ": " ++ e.message), st.2 ++ [p.2.Name]))
    (none, [])

/-- `Rollback` (tracker.go lines 151-200): lock, find the record, set status
rolling_back and `save` (a nested acquire of the held mutex), unlock, run
the uninstall loop, re-lock, write the final status (rolled_back, or
rollback_failed with the aggregated message under metadata key
rollback_error), refresh the timestamp, `save` again, and return the
accumulated uninstall error.  The result pairs the method outcome with the
list of packages the driver was actually asked to uninstall. -/
def Rollback (t : InstallationTracker) (installationID : String)
    (driver : String → Option GoErr) (now : Nat) :
    TrackerOutcome (Option String) × List String :=
  if t.locked then (.deadlock, [])
  else
    let t1 : InstallationTracker := { t with locked := true }
    match mapGet installationID t1.installations with
    | none =>
        (.err ("installation record not found: " ++ installationID)
          { t1 with locked := false }, [])
    | some record =>
        let record1 : InstallationRecord := { record with Status := "rolling_back" }
        let t2 : InstallationTracker :=
          { t1 with installations := mapSet installationID record1 t1.installations }
        match trackerSave t2 with
        | .deadlock => (.deadlock, [])
        | .err e t3 =>
            (.err ("failed to update installation status: " ++ e)
              { t3 with locked := false }, [])
        | .ok _ t3 =>
            let t4 : InstallationTracker := { t3 with locked := false }
            let roll := rollbackLoop driver record1.Packages
            if t4.locked then (.deadlock, roll.2)
            else
              let t5 : InstallationTracker := { t4 with locked := true }
              let record2 : InstallationRecord :=
                match roll.1 with
                | some msg =>
                    { record1 with
                      Status := "rollback_failed",
                      Metadata := mapSet "rollback_error" msg record1.Metadata,
                      Timestamp := now }
                | none =>
                    { record1 with Status := "rolled_back", Timestamp := now }
              let t6 : InstallationTracker :=
                { t5 with installations := mapSet installationID record2 t5.installations }
              match trackerSave t6 with
              | .deadlock => (.deadlock, roll.2)
              | .err e t7 =>
                  (match roll.1 with
                    | some msg =>
                        (.err ("rollback failed: " ++ msg
                          ++ "; failed to save record: " ++ e)
                          { t7 with locked := false }, roll.2)
                    | none =>
                        (.err ("failed to save rollback record: " ++ e)
                          { t7 with locked := false }, roll.2))
              | .ok _ t7 => (.ok roll.1 { t7 with locked := false }, roll.2)

/-- Two tracked packages for the tracker scenarios. -/
def pkgA : TPackageInfo := { Name := "pkg-a", Version := "1.0.0", ManagerType := "" }

/-- Second tracked package; its uninstall will fail in the C2 scenario. -/
def pkgB : TPackageInfo := { Name := "pkg-b", Version := "2.0.0", ManagerType := "" }

/-- A completed installation record holding the two packages. -/
def rec1 : InstallationRecord :=
  { ID := "inst_1", Timestamp := 1,
    Packages := [("pkg-a", pkgA), ("pkg-b", pkgB)],
    Metadata := [], Status := "completed" }

/-- An idle tracker (mutex free) with no records. -/
def tracker0 : InstallationTracker :=
  { installations := [], locked := false, journal := none }

/-- An idle tracker (mutex free) holding `rec1`. -/
def tracker1 : InstallationTracker :=
  { installations := [("inst_1", rec1)], locked := false, journal := none }

/-- A rollback driver whose uninstall of pkg-b fails. -/
def c2Driver : String → Option GoErr :=
  fun p => if p = "pkg-b" then some (.wrapped "exit status 1") else none

/-- C1: REFUTED (code bug).  `save` begins with `t.mu.Lock()` while every
public mutating method of the tracker already holds `t.mu`, and Go's
`sync.Mutex` is not reentrant: started on an idle tracker (mutex free), each
of `StartInstallation`, `AddPackage`, `CompleteInstallation`,
`FailInstallation` and `Rollback` reaches the nested lock inside `save` and
blocks forever.  No mutating method ever returns, so the claimed
hold-for-full-duration-then-return contract never completes and the journal
is never written. -/
theorem tracker_mutating_methods_deadlock :
    StartInstallation tracker0 "inst_1" 1 = .deadlock
    ∧ AddPackage tracker1 "inst_1" "pkg-c" "3.0.0" = .deadlock
    ∧ CompleteInstallation tracker1 "inst_1" 2 = .deadlock
    ∧ FailInstallation tracker1 "inst_1" "network down" 2 = .deadlock
    ∧ Rollback tracker1 "inst_1" (fun _ => none) 2 = (.deadlock, []) :=
  ⟨rfl, rfl, rfl, rfl, rfl⟩

/-- C2: REFUTED (code bug).  On a record with two tracked packages whose
driver fails on pkg-b, `Rollback` deadlocks at the nested `save` right after
setting status rolling_back — before calling the driver even once (empty
uninstall list): the loop, the error aggregation, the final status and the
returned error naming pkg-b never happen.  The second conjunct shows what
the uninstall loop would have produced had control ever reached it. -/
theorem rollback_deadlocks_before_uninstalling :
    Rollback tracker1 "inst_1" c2Driver 2 = (.deadlock, [])
    ∧ rollbackLoop c2Driver rec1.Packages
        = (some "failed to uninstall package pkg-b: exit status 1",
           ["pkg-a", "pkg-b"]) :=
  ⟨rfl, rfl⟩

/-! ## GetInstallation and the shallow copy (tracker.go lines 203-215)

`GetInstallation` returns `&recordCopy` where `recordCopy := *record` is a
plain struct copy.  Go maps are reference types: the copy's `Packages` and
`Metadata` fields still point at the ORIGINAL record's maps.  To state this
the records and maps live in an explicit heap, with `RecData` holding the
two map fields as cell addresses — the struct copy duplicates the addresses,
not the map cells. -/

/-- A record struct as laid out in memory: scalar fields by value, the two
map fields as heap addresses. -/
structure RecData where
  ID : String
  Timestamp : Nat
  PackagesRef : Nat
  MetadataRef : Nat
  Status : String
deriving DecidableEq, Repr

/-- The heap: record cells, Packages-map cells and Metadata-map cells at
numbered addresses; `next` is the next fresh address. -/
structure Heap where
  recs : List (Nat × RecData)
  pkgMaps : List (Nat × List (String × TPackageInfo))
  strMaps : List (Nat × List (String × String))
  next : Nat
deriving DecidableEq, Repr

/-- `GetInstallation` (tracker.go lines 203-215): look the id up in
`t.installations` (here a map from id to record address); if found,
`recordCopy := *record` allocates a fresh record cell holding the very same
field values — including the two map addresses — and the copy's address is
returned.  (`GetInstallation` itself never calls `save`, so its
lock/deferred-unlock pair completes; it is taken with the mutex free.) -/
def GetInstallation (h : Heap) (installations : List (String × Nat))
    (id : String) : Option (Nat × Heap) :=
  match mapGet id installations with
  | none => none
  | some p =>
      match mapGet p h.recs with
      | none => none
      | some rd =>
          some (h.next, { h with
                          recs := mapSet h.next rd h.recs,
                          next := h.next + 1 })

/-- A scalar write through a record pointer (e.g. `rec.Status = s`). -/
def heapSetStatus (h : Heap) (p : Nat) (st : String) : Heap :=
  match mapGet p h.recs with
  | none => h
  | some rd => { h with recs := mapSet p { rd with Status := st } h.recs }

/-- A map write through a Packages-map address (e.g. `rec.Packages[k] = v`
through whichever record holds the address `mref`). -/
def heapPkgSet (h : Heap) (mref : Nat) (k : String) (v : TPackageInfo) : Heap :=
  match mapGet mref h.pkgMaps with
  | none => h
  | some m => { h with pkgMaps := mapSet mref (mapSet k v m) h.pkgMaps }

/-- The Packages map as seen through the record cell at `p`. -/
def readPackages (h : Heap) (p : Nat) : Option (List (String × TPackageInfo)) :=
  match mapGet p h.recs with
  | none => none
  | some rd => mapGet rd.PackagesRef h.pkgMaps

/-- Updating a key and reading it back yields the new value. -/
theorem mapGet_mapSet_self {K B : Type} [DecidableEq K] (k : K) (v : B) :
    ∀ l : List (K × B), mapGet k (mapSet k v l) = some v
  | [] => by simp [mapSet, mapGet]
  | (k0, v0) :: rest => by
      by_cases h : k0 = k
      · simp [mapSet, mapGet, h]
      · simp [mapSet, mapGet, h, mapGet_mapSet_self k v rest]

/-- Updating one key leaves every other key's binding unchanged. -/
theorem mapGet_mapSet_ne {K B : Type} [DecidableEq K] (k q : K) (v : B)
    (hne : q ≠ k) : ∀ l : List (K × B), mapGet q (mapSet k v l) = mapGet q l
  | [] => by simp [mapSet, mapGet, Ne.symm hne]
  | (k0, v0) :: rest => by
      by_cases h : k0 = k
      · subst h
        simp [mapSet, mapGet, Ne.symm hne]
      · simp [mapSet, mapGet, h, mapGet_mapSet_ne k q v hne rest]

/-- The stored record and its two map cells for the shallow-copy scenario. -/
def c7Rec : RecData :=
  { ID := "inst_1", Timestamp := 1, PackagesRef := 10, MetadataRef := 11,
    Status := "completed" }

/-- A heap with that one record whose Packages map is empty. -/
def c7Heap : Heap :=
  { recs := [(0, c7Rec)], pkgMaps := [(10, [])], strMaps := [(11, [])],
    next := 1 }

/-- The tracker map: id inst_1 points at record cell 0. -/
def c7Installs : List (String × Nat) := [("inst_1", 0)]

/-- The package inserted through the returned copy. -/
def c7Pkg : TPackageInfo := { Name := "pkg-x", Version := "1.0.0", ManagerType := "apt" }

/-- The heap after the `GetInstallation` struct copy (cell 1 duplicates
`c7Rec`, map addresses included). -/
def c7Heap1 : Heap :=
  { recs := [(0, c7Rec), (1, c7Rec)], pkgMaps := [(10, [])],
    strMaps := [(11, [])], next := 2 }

/-- The heap after inserting pkg-x through the copy's (shared) Packages
map. -/
def c7Heap2 : Heap := heapPkgSet c7Heap1 10 "pkg-x" c7Pkg

/-- The struct copy shares its maps with the stored record: the copy at cell
1 carries the same Packages address 10; the stored record's map is empty
before the insert through the copy and contains pkg-x after it; and a later
`GetInstallation` returns a record through which pkg-x is visible.  This
refutes the claimed isolation of mutations made through the returned
record's maps. -/
theorem getInstallation_shared_maps_counterexample :
    GetInstallation c7Heap c7Installs "inst_1" = some (1, c7Heap1)
    ∧ (mapGet 1 c7Heap1.recs).map RecData.PackagesRef = some 10
    ∧ readPackages c7Heap 0 = some []
    ∧ readPackages c7Heap2 0 = some [("pkg-x", c7Pkg)]
    ∧ (match GetInstallation c7Heap2 c7Installs "inst_1" with
        | some ph => readPackages ph.2 ph.1
        | none => none) = some [("pkg-x", c7Pkg)] :=
  ⟨rfl, rfl, rfl, rfl, rfl⟩

/-- C7: CORRECTED.  For every id stored in the tracker, `GetInstallation`
returns a freshly allocated record cell whose scalar fields are isolated —
the stored cell is untouched by the call, and a Status write through the
copy leaves the stored record unchanged — but the copy is shallow: it
carries the very same Packages map address as the stored record, so a map
write through the copy is exactly a write to the map the stored record
reads. -/
theorem getInstallation_shallow_copy (h : Heap)
    (installations : List (String × Nat)) (id : String) (p : Nat)
    (rd : RecData) (hid : mapGet id installations = some p)
    (hrec : mapGet p h.recs = some rd) (hlt : p < h.next) :
    ∃ h1 : Heap,
      GetInstallation h installations id = some (h.next, h1)
      ∧ mapGet h.next h1.recs = some rd
      ∧ mapGet p h1.recs = some rd
      ∧ (∀ st : String, mapGet p (heapSetStatus h1 h.next st).recs = some rd)
      ∧ (∀ (k : String) (v : TPackageInfo),
          readPackages (heapPkgSet h1 rd.PackagesRef k v) p
            = (mapGet rd.PackagesRef h1.pkgMaps).map (mapSet k v)) := by
  have hne : p ≠ h.next := Nat.ne_of_lt hlt
  refine ⟨{ h with recs := mapSet h.next rd h.recs, next := h.next + 1 },
    ?_, ?_, ?_, ?_, ?_⟩
  · simp only [GetInstallation, hid, hrec]
  · exact mapGet_mapSet_self h.next rd h.recs
  · rw [mapGet_mapSet_ne h.next p rd hne h.recs, hrec]
  · intro st
    have hg : mapGet h.next (mapSet h.next rd h.recs) = some rd :=
      mapGet_mapSet_self h.next rd h.recs
    show mapGet p (heapSetStatus { h with recs := mapSet h.next rd h.recs, next := h.next + 1 } h.next st).recs = some rd
    simp only [heapSetStatus, hg]
    rw [mapGet_mapSet_ne h.next p _ hne, mapGet_mapSet_ne h.next p rd hne h.recs, hrec]
  · intro k v
    have hrec1 : mapGet p (mapSet h.next rd h.recs) = some rd := by
      rw [mapGet_mapSet_ne h.next p rd hne h.recs, hrec]
    cases hm : mapGet rd.PackagesRef h.pkgMaps with
    | none =>
        simp only [heapPkgSet, hm, readPackages, hrec1]
        rfl
    | some m =>
        simp only [heapPkgSet, hm, readPackages, hrec1, mapGet_mapSet_self]
        rfl

/-- Witness: the shallow-copy theorem applied at the one-record heap. -/
theorem getInstallation_shallow_copy_witness :
    mapGet "inst_1" c7Installs = some 0
    ∧ mapGet 0 c7Heap.recs = some c7Rec
    ∧ 0 < c7Heap.next
    ∧ ∃ h1 : Heap,
        GetInstallation c7Heap c7Installs "inst_1" = some (c7Heap.next, h1)
        ∧ mapGet c7Heap.next h1.recs = some c7Rec
        ∧ mapGet 0 h1.recs = some c7Rec
        ∧ (∀ st : String, mapGet 0 (heapSetStatus h1 c7Heap.next st).recs = some c7Rec)
        ∧ (∀ (k : String) (v : TPackageInfo),
            readPackages (heapPkgSet h1 c7Rec.PackagesRef k v) 0
              = (mapGet c7Rec.PackagesRef h1.pkgMaps).map (mapSet k v)) :=
  ⟨rfl, rfl, by decide,
   getInstallation_shallow_copy c7Heap c7Installs "inst_1" 0 c7Rec rfl rfl
     (by decide)⟩

end Stackmatch
